import Mathlib

/-!
Verification of the lara-go translation-platform client library.

The Go sources are shallowly embedded: bytes are natural numbers kept below
256, machine words are naturals reduced modulo 2^32, strings are Lean
strings (Go source strings are ASCII, so UTF-8 encoding agrees), fallible
operations return `Option`/`Except`, and the HTTP transport is modelled by
passing the transport outcome (or a fetch oracle, for the polling loops)
as an explicit argument.  JSON numbers are modelled as integers, which
covers every value the library itself produces or inspects.
-/

namespace LaraGo

/-! ## Bytes and words -/

/-- UTF-8 encoding of a single code point. -/
def utf8Bytes (n : Nat) : List Nat :=
  if n < 128 then [n]
  else if n < 2048 then [192 + n / 64, 128 + n % 64]
  else if n < 65536 then [224 + n / 4096, 128 + n / 64 % 64, 128 + n % 64]
  else [240 + n / 262144, 128 + n / 4096 % 64, 128 + n / 64 % 64, 128 + n % 64]

/-- The bytes of a string, as Go sees it (UTF-8). -/
def strBytes (s : String) : List Nat :=
  (s.toList.map (fun c => utf8Bytes c.toNat)).flatten

/-- Truncation to a 32-bit word. -/
def w32 (n : Nat) : Nat := n % 4294967296

/-- Right rotation of a 32-bit word by `k` places. -/
def rotr32 (k n : Nat) : Nat := w32 (n / 2 ^ k + n % 2 ^ k * 2 ^ (32 - k))

/-- Left rotation of a 32-bit word by `k` places. -/
def rotl32 (k n : Nat) : Nat := w32 (n / 2 ^ (32 - k) + n % 2 ^ (32 - k) * 2 ^ k)

/-- Bitwise complement of a 32-bit word. -/
def not32 (n : Nat) : Nat := 4294967295 - n

/-- Big-endian bytes of `n`, `k` bytes wide. -/
def natToBytesBE (k n : Nat) : List Nat :=
  (List.range k).map (fun i => n / 2 ^ (8 * (k - 1 - i)) % 256)

/-- Little-endian bytes of `n`, `k` bytes wide. -/
def natToBytesLE (k n : Nat) : List Nat :=
  (List.range k).map (fun i => n / 2 ^ (8 * i) % 256)

/-- Split a byte list into 64-byte blocks. -/
def toBlocks (l : List Nat) : List (List Nat) :=
  if h : l = [] then [] else
    have : (List.drop 64 l).length < l.length := by
      have : 0 < l.length := List.length_pos.mpr h
      simp [List.length_drop]; omega
    l.take 64 :: toBlocks (l.drop 64)
termination_by l.length

/-- Big-endian 32-bit words of a byte list. -/
def bytesToWordsBE : List Nat → List Nat
  | b0 :: b1 :: b2 :: b3 :: rest =>
      (b0 * 16777216 + b1 * 65536 + b2 * 256 + b3) :: bytesToWordsBE rest
  | _ => []

/-- Little-endian 32-bit words of a byte list. -/
def bytesToWordsLE : List Nat → List Nat
  | b0 :: b1 :: b2 :: b3 :: rest =>
      (b3 * 16777216 + b2 * 65536 + b1 * 256 + b0) :: bytesToWordsLE rest
  | _ => []

/-- SHA-256 / MD5 message padding: `0x80`, zeros, then the 8-byte bit
length (big-endian for SHA-256, little-endian for MD5). -/
def padMessage (lenBytes : List Nat) (msg : List Nat) : List Nat :=
  msg ++ 128 :: List.replicate ((64 - (msg.length + 9) % 64) % 64) 0 ++ lenBytes

/-! ## SHA-256 -/

structure Sha256State where
  a : Nat
  b : Nat
  c : Nat
  d : Nat
  e : Nat
  f : Nat
  g : Nat
  hh : Nat

def sha256Init : Sha256State :=
  ⟨1779033703, 3144134277, 1013904242, 2773480762,
   1359893119, 2600822924, 528734635, 1541459225⟩

def sha256K : List Nat :=
  [1116352408, 1899447441, 3049323471, 3921009573, 961987163, 1508970993,
   2453635748, 2870763221, 3624381080, 310598401, 607225278, 1426881987,
   1925078388, 2162078206, 2614888103, 3248222580, 3835390401, 4022224774,
   264347078, 604807628, 770255983, 1249150122, 1555081692, 1996064986,
   2554220882, 2821834349, 2952996808, 3210313671, 3336571891, 3584528711,
   113926993, 338241895, 666307205, 773529912, 1294757372, 1396182291,
   1695183700, 1986661051, 2177026350, 2456956037, 2730485921, 2820302411,
   3259730800, 3345764771, 3516065817, 3600352804, 4094571909, 275423344,
   430227734, 506948616, 659060556, 883997877, 958139571, 1322822218,
   1537002063, 1747873779, 1955562222, 2024104815, 2227730452, 2361852424,
   2428436474, 2756734187, 3204031479, 3329325298]

def shaCh (e f g : Nat) : Nat := (e &&& f) ^^^ (not32 e &&& g)

def shaMaj (a b c : Nat) : Nat := (a &&& b) ^^^ (a &&& c) ^^^ (b &&& c)

def bsig0 (x : Nat) : Nat := rotr32 2 x ^^^ rotr32 13 x ^^^ rotr32 22 x

def bsig1 (x : Nat) : Nat := rotr32 6 x ^^^ rotr32 11 x ^^^ rotr32 25 x

def ssig0 (x : Nat) : Nat := rotr32 7 x ^^^ rotr32 18 x ^^^ (x / 2 ^ 3)

def ssig1 (x : Nat) : Nat := rotr32 17 x ^^^ rotr32 19 x ^^^ (x / 2 ^ 10)

/-- Extend the 16 schedule words to 64. -/
def sha256Extend (acc : List Nat) : Nat → List Nat
  | 0 => acc
  | k + 1 =>
      let n := acc.length
      sha256Extend
        (acc ++ [w32 (ssig1 (acc.getD (n - 2) 0) + acc.getD (n - 7) 0 +
                 ssig0 (acc.getD (n - 15) 0) + acc.getD (n - 16) 0)]) k

def sha256Round (st : Sha256State) (kw : Nat × Nat) : Sha256State :=
  let t1 := w32 (st.hh + bsig1 st.e + shaCh st.e st.f st.g + kw.1 + kw.2)
  let t2 := w32 (bsig0 st.a + shaMaj st.a st.b st.c)
  ⟨w32 (t1 + t2), st.a, st.b, st.c, w32 (st.d + t1), st.e, st.f, st.g⟩

def sha256Block (st : Sha256State) (block : List Nat) : Sha256State :=
  let ws := sha256Extend (bytesToWordsBE block) 48
  let z := (sha256K.zip ws).foldl sha256Round st
  ⟨w32 (st.a + z.a), w32 (st.b + z.b), w32 (st.c + z.c), w32 (st.d + z.d),
   w32 (st.e + z.e), w32 (st.f + z.f), w32 (st.g + z.g), w32 (st.hh + z.hh)⟩

def sha256Digest (st : Sha256State) : List Nat :=
  natToBytesBE 4 st.a ++ natToBytesBE 4 st.b ++ natToBytesBE 4 st.c ++
  natToBytesBE 4 st.d ++ natToBytesBE 4 st.e ++ natToBytesBE 4 st.f ++
  natToBytesBE 4 st.g ++ natToBytesBE 4 st.hh

/-- SHA-256 of a byte list. -/
def sha256 (msg : List Nat) : List Nat :=
  sha256Digest
    ((toBlocks (padMessage (natToBytesBE 8 (msg.length * 8)) msg)).foldl
      sha256Block sha256Init)

theorem sha256_length (msg : List Nat) : (sha256 msg).length = 32 := by
  simp [sha256, sha256Digest, natToBytesBE]

theorem natToBytesBE_lt (k n : Nat) : ∀ b ∈ natToBytesBE k n, b < 256 := by
  intro b hb
  simp only [natToBytesBE, List.mem_map] at hb
  obtain ⟨i, _, rfl⟩ := hb
  exact Nat.mod_lt _ (by norm_num)

theorem sha256_lt (msg : List Nat) : ∀ b ∈ sha256 msg, b < 256 := by
  intro b hb
  simp only [sha256, sha256Digest, List.mem_append] at hb
  rcases hb with ((((((h | h) | h) | h) | h) | h) | h) | h <;>
    exact natToBytesBE_lt _ _ _ h

/-! ## HMAC-SHA256 -/

/-- HMAC-SHA256 with a 64-byte block size, as in Go's `crypto/hmac`. -/
def hmacSha256 (key msg : List Nat) : List Nat :=
  let k0 := if 64 < key.length then sha256 key else key
  let k1 := k0 ++ List.replicate (64 - k0.length) 0
  sha256 (k1.map (fun b => b ^^^ 92) ++ sha256 (k1.map (fun b => b ^^^ 54) ++ msg))

theorem hmacSha256_length (key msg : List Nat) :
    (hmacSha256 key msg).length = 32 := sha256_length _

theorem hmacSha256_lt (key msg : List Nat) :
    ∀ b ∈ hmacSha256 key msg, b < 256 := sha256_lt _

/-! ## MD5 -/

structure Md5State where
  a : Nat
  b : Nat
  c : Nat
  d : Nat

def md5Init : Md5State := ⟨0x67452301, 0xefcdab89, 0x98badcfe, 0x10325476⟩

def md5K : List Nat :=
  [0xd76aa478, 0xe8c7b756, 0x242070db, 0xc1bdceee,
   0xf57c0faf, 0x4787c62a, 0xa8304613, 0xfd469501,
   0x698098d8, 0x8b44f7af, 0xffff5bb1, 0x895cd7be,
   0x6b901122, 0xfd987193, 0xa679438e, 0x49b40821,
   0xf61e2562, 0xc040b340, 0x265e5a51, 0xe9b6c7aa,
   0xd62f105d, 0x02441453, 0xd8a1e681, 0xe7d3fbc8,
   0x21e1cde6, 0xc33707d6, 0xf4d50d87, 0x455a14ed,
   0xa9e3e905, 0xfcefa3f8, 0x676f02d9, 0x8d2a4c8a,
   0xfffa3942, 0x8771f681, 0x6d9d6122, 0xfde5380c,
   0xa4beea44, 0x4bdecfa9, 0xf6bb4b60, 0xbebfbc70,
   0x289b7ec6, 0xeaa127fa, 0xd4ef3085, 0x04881d05,
   0xd9d4d039, 0xe6db99e5, 0x1fa27cf8, 0xc4ac5665,
   0xf4292244, 0x432aff97, 0xab9423a7, 0xfc93a039,
   0x655b59c3, 0x8f0ccc92, 0xffeff47d, 0x85845dd1,
   0x6fa87e4f, 0xfe2ce6e0, 0xa3014314, 0x4e0811a1,
   0xf7537e82, 0xbd3af235, 0x2ad7d2bb, 0xeb86d391]

def md5S : List Nat :=
  [7, 12, 17, 22, 7, 12, 17, 22, 7, 12, 17, 22, 7, 12, 17, 22,
   5, 9, 14, 20, 5, 9, 14, 20, 5, 9, 14, 20, 5, 9, 14, 20,
   4, 11, 16, 23, 4, 11, 16, 23, 4, 11, 16, 23, 4, 11, 16, 23,
   6, 10, 15, 21, 6, 10, 15, 21, 6, 10, 15, 21, 6, 10, 15, 21]

def md5F (round b c d : Nat) : Nat :=
  match round with
  | 0 => (b &&& c) ||| (not32 b &&& d)
  | 1 => (d &&& b) ||| (not32 d &&& c)
  | 2 => b ^^^ c ^^^ d
  | _ => c ^^^ (b ||| not32 d)

def md5G (round i : Nat) : Nat :=
  match round with
  | 0 => i % 16
  | 1 => (5 * i + 1) % 16
  | 2 => (3 * i + 5) % 16
  | _ => 7 * i % 16

def md5Step (m : List Nat) (st : Md5State) (i : Nat) : Md5State :=
  let f := md5F (i / 16) st.b st.c st.d
  let newB := w32 (st.b + rotl32 (md5S.getD i 0)
    (w32 (st.a + f + md5K.getD i 0 + m.getD (md5G (i / 16) i) 0)))
  ⟨st.d, newB, st.b, st.c⟩

def md5Block (st : Md5State) (block : List Nat) : Md5State :=
  let m := bytesToWordsLE block
  let z := (List.range 64).foldl (md5Step m) st
  ⟨w32 (st.a + z.a), w32 (st.b + z.b), w32 (st.c + z.c), w32 (st.d + z.d)⟩

def md5DigestBytes (st : Md5State) : List Nat :=
  natToBytesLE 4 st.a ++ natToBytesLE 4 st.b ++
  natToBytesLE 4 st.c ++ natToBytesLE 4 st.d

/-- MD5 of a byte list. -/
def md5 (msg : List Nat) : List Nat :=
  md5DigestBytes
    ((toBlocks (padMessage (natToBytesLE 8 (msg.length * 8)) msg)).foldl
      md5Block md5Init)

theorem md5_length (msg : List Nat) : (md5 msg).length = 16 := by
  simp [md5, md5DigestBytes, natToBytesLE]

def hexDigitChar (n : Nat) : Char := "0123456789abcdef".toList.getD n '0'

/-- Lowercase hex rendering of bytes, as Go's `fmt.Sprintf("%x", ...)`. -/
def bytesToHex (bs : List Nat) : String :=
  String.mk ((bs.map (fun b => [hexDigitChar (b / 16), hexDigitChar (b % 16)])).flatten)

/-- The MD5 hex digest the client puts in `Content-MD5`. -/
def md5Hex (bs : List Nat) : String := bytesToHex (md5 bs)

theorem md5Hex_length (bs : List Nat) : (md5Hex bs).length = 32 := by
  have h : (md5 bs).length = 16 := md5_length bs
  simp [md5Hex, bytesToHex, String.length, List.length_flatten,
    Function.comp, h, List.map_map]
  rw [List.map_congr_left (g := fun _ => 2) (by intro a _; rfl)]
  simp [h]

theorem md5Hex_ne_empty (bs : List Nat) : md5Hex bs ≠ "" := by
  intro h
  have := md5Hex_length bs
  rw [h] at this
  simp at this

/-! ## Base64 (standard alphabet, with padding) -/

def b64Table : List Char :=
  "ABCDEFGHIJKLMNOPQRSTUVWXYZabcdefghijklmnopqrstuvwxyz0123456789+/".toList

def b64Char (n : Nat) : Char := b64Table.getD n 'A'

def b64Val (c : Char) : Option Nat := b64Table.indexOf? c

def b64EncList : List Nat → List Char
  | [] => []
  | [a] => [b64Char (a / 4), b64Char (a % 4 * 16), '=', '=']
  | [a, b] => [b64Char (a / 4), b64Char (a % 4 * 16 + b / 16),
               b64Char (b % 16 * 4), '=']
  | a :: b :: c :: rest =>
      b64Char (a / 4) :: b64Char (a % 4 * 16 + b / 16) ::
      b64Char (b % 16 * 4 + c / 64) :: b64Char (c % 64) :: b64EncList rest

/-- Base64 encoding, as Go's `base64.StdEncoding.EncodeToString`. -/
def base64Encode (bs : List Nat) : String := String.mk (b64EncList bs)

def b64DecList : List Char → Option (List Nat)
  | [] => some []
  | c1 :: c2 :: c3 :: c4 :: rest => do
      let v1 ← b64Val c1
      let v2 ← b64Val c2
      if c3 = '=' then
        if c4 = '=' ∧ rest = [] then some [v1 * 4 + v2 / 16] else none
      else do
        let v3 ← b64Val c3
        if c4 = '=' then
          if rest = [] then some [v1 * 4 + v2 / 16, v2 % 16 * 16 + v3 / 4]
          else none
        else do
          let v4 ← b64Val c4
          let tail ← b64DecList rest
          some ((v1 * 4 + v2 / 16) :: (v2 % 16 * 16 + v3 / 4) ::
                (v3 % 4 * 64 + v4) :: tail)
  | _ => none

/-- Base64 decoding (used to state the 32-byte-signature property). -/
def base64Decode (s : String) : Option (List Nat) := b64DecList s.toList

theorem b64Val_b64Char {n : Nat} (h : n < 64) : b64Val (b64Char n) = some n := by
  interval_cases n <;> rfl

theorem b64Char_ne_pad {n : Nat} (h : n < 64) : b64Char n ≠ '=' := by
  interval_cases n <;> decide

theorem b64_roundtrip :
    ∀ bs : List Nat, (∀ b ∈ bs, b < 256) →
      b64DecList (b64EncList bs) = some bs := by
  intro bs
  induction bs using b64EncList.induct with
  | case1 => intro _; rfl
  | case2 a =>
      intro hlt
      have ha : a < 256 := hlt a (by simp)
      have e1 : b64Val (b64Char (a / 4)) = some (a / 4) :=
        b64Val_b64Char (by omega)
      have e2 : b64Val (b64Char (a % 4 * 16)) = some (a % 4 * 16) :=
        b64Val_b64Char (by omega)
      simp [b64EncList, b64DecList, e1, e2]
      omega
  | case3 a b =>
      intro hlt
      have ha : a < 256 := hlt a (by simp)
      have hb : b < 256 := hlt b (by simp)
      have e1 : b64Val (b64Char (a / 4)) = some (a / 4) :=
        b64Val_b64Char (by omega)
      have e2 : b64Val (b64Char (a % 4 * 16 + b / 16)) =
          some (a % 4 * 16 + b / 16) := b64Val_b64Char (by omega)
      have e3 : b64Val (b64Char (b % 16 * 4)) = some (b % 16 * 4) :=
        b64Val_b64Char (by omega)
      have n3 : b64Char (b % 16 * 4) ≠ '=' := b64Char_ne_pad (by omega)
      simp [b64EncList, b64DecList, e1, e2, e3, n3]
      omega
  | case4 a b c rest ih =>
      intro hlt
      have ha : a < 256 := hlt a (by simp)
      have hb : b < 256 := hlt b (by simp)
      have hc : c < 256 := hlt c (by simp)
      have e1 : b64Val (b64Char (a / 4)) = some (a / 4) :=
        b64Val_b64Char (by omega)
      have e2 : b64Val (b64Char (a % 4 * 16 + b / 16)) =
          some (a % 4 * 16 + b / 16) := b64Val_b64Char (by omega)
      have e3 : b64Val (b64Char (b % 16 * 4 + c / 64)) =
          some (b % 16 * 4 + c / 64) := b64Val_b64Char (by omega)
      have e4 : b64Val (b64Char (c % 64)) = some (c % 64) :=
        b64Val_b64Char (by omega)
      have n3 : b64Char (b % 16 * 4 + c / 64) ≠ '=' := b64Char_ne_pad (by omega)
      have n4 : b64Char (c % 64) ≠ '=' := b64Char_ne_pad (by omega)
      have htail := ih (fun x hx => hlt x (by simp [hx]))
      simp [b64EncList, b64DecList, e1, e2, e3, e4, n3, n4, htail]
      refine ⟨by omega, by omega, by omega⟩

theorem base64_roundtrip (bs : List Nat) (h : ∀ b ∈ bs, b < 256) :
    base64Decode (base64Encode bs) = some bs := by
  simpa [base64Decode, base64Encode] using b64_roundtrip bs h

/-! ## JSON values

JSON as consumed and produced by `encoding/json` on the shapes this client
uses.  Numbers are modelled as integers; fractional literals are outside
the model (no claim depends on them). -/

inductive Json where
  | null : Json
  | bool (b : Bool) : Json
  | num (n : Int) : Json
  | str (s : String) : Json
  | arr (elems : List Json) : Json
  | obj (fields : List (String × Json)) : Json

/-- The opening and closing braces, named so they can be used uniformly. -/
def lbrace : Char := Char.ofNat 123

def rbrace : Char := Char.ofNat 125

/-- Decimal digits of a natural number, most significant first. -/
def natDigits (n : Nat) : List Char :=
  if n < 10 then [hexDigitChar n]
  else natDigits (n / 10) ++ [hexDigitChar (n % 10)]
termination_by n
decreasing_by exact Nat.div_lt_self (by omega) (by omega)

/-- JSON escaping of one character inside a string literal. -/
def escapeChar (c : Char) : List Char :=
  if c = '"' then ['\\', '"']
  else if c = '\\' then ['\\', '\\']
  else if c = '\n' then ['\\', 'n']
  else if c = '\t' then ['\\', 't']
  else if c = '\r' then ['\\', 'r']
  else if c.toNat < 32 then
    ['\\', 'u', '0', '0', hexDigitChar (c.toNat / 16), hexDigitChar (c.toNat % 16)]
  else [c]

/-- A JSON string literal, quotes included. -/
def renderString (s : String) : List Char :=
  '"' :: (s.toList.map escapeChar).flatten ++ ['"']

/-- An integer literal. -/
def renderInt (n : Int) : List Char :=
  if n < 0 then '-' :: natDigits n.natAbs else natDigits n.toNat

mutual

/-- Serialization of a JSON value (the reference wire form used to state
round-trip properties about response bodies). -/
def renderJson : Json → List Char
  | Json.null => ['n', 'u', 'l', 'l']
  | Json.bool true => ['t', 'r', 'u', 'e']
  | Json.bool false => ['f', 'a', 'l', 's', 'e']
  | Json.num n => renderInt n
  | Json.str s => renderString s
  | Json.arr xs => '[' :: renderArr xs ++ [']']
  | Json.obj kvs => lbrace :: renderObj kvs ++ [rbrace]

def renderArr : List Json → List Char
  | [] => []
  | [x] => renderJson x
  | x :: y :: xs => renderJson x ++ ',' :: renderArr (y :: xs)

def renderObj : List (String × Json) → List Char
  | [] => []
  | [(k, v)] => renderString k ++ ':' :: renderJson v
  | (k, v) :: kv :: kvs =>
      renderString k ++ ':' :: renderJson v ++ ',' :: renderObj (kv :: kvs)

end

/-- The string form of `renderJson`. -/
def renderJsonStr (j : Json) : String := String.mk (renderJson j)

def isWsChar (c : Char) : Bool := c = ' ' || c = '\t' || c = '\n' || c = '\r'

def skipWs : List Char → List Char
  | [] => []
  | c :: cs => if isWsChar c then skipWs cs else c :: cs

def hexVal (c : Char) : Option Nat :=
  if '0' ≤ c ∧ c ≤ '9' then some (c.toNat - 48)
  else if 'a' ≤ c ∧ c ≤ 'f' then some (c.toNat - 87)
  else if 'A' ≤ c ∧ c ≤ 'F' then some (c.toNat - 55)
  else none

def unescapeChar (c : Char) : Option Char :=
  if c = '"' then some '"'
  else if c = '\\' then some '\\'
  else if c = '/' then some '/'
  else if c = 'n' then some '\n'
  else if c = 't' then some '\t'
  else if c = 'r' then some '\r'
  else if c = 'b' then some (Char.ofNat 8)
  else if c = 'f' then some (Char.ofNat 12)
  else none

/-- Parse the body of a JSON string literal after the opening quote;
returns the decoded characters and the input after the closing quote. -/
def parseStringBody (l : List Char) : Option (List Char × List Char) :=
  match l with
  | [] => none
  | c :: cs =>
    if c = '"' then some ([], cs)
    else if c = '\\' then
      match cs with
      | [] => none
      | e :: cs' =>
        if e = 'u' then
          match cs' with
          | h1 :: h2 :: h3 :: h4 :: cs2 =>
            match hexVal h1, hexVal h2, hexVal h3, hexVal h4 with
            | some v1, some v2, some v3, some v4 =>
              let n := v1 * 4096 + v2 * 256 + v3 * 16 + v4
              if n < 55296 then
                match parseStringBody cs2 with
                | some (chars, rest) => some (Char.ofNat n :: chars, rest)
                | none => none
              else none
            | _, _, _, _ => none
          | _ => none
        else
          match unescapeChar e with
          | some c2 =>
            match parseStringBody cs' with
            | some (chars, rest) => some (c2 :: chars, rest)
            | none => none
          | none => none
    else if c.toNat < 32 then none
    else
      match parseStringBody cs with
      | some (chars, rest) => some (c :: chars, rest)
      | none => none

/-- Consume a run of decimal digits, accumulating their value. -/
def digitsVal (acc : Nat) : List Char → Nat × List Char
  | [] => (acc, [])
  | c :: cs =>
      if c.isDigit then digitsVal (acc * 10 + (c.toNat - 48)) cs
      else (acc, c :: cs)

mutual

/-- Fuel-bounded recursive-descent JSON value parser. -/
def parseValue : Nat → List Char → Option (Json × List Char)
  | 0, _ => none
  | fuel + 1, cs =>
    match skipWs cs with
    | [] => none
    | c :: cs' =>
      if c = lbrace then
        match skipWs cs' with
        | d :: rest => if d = rbrace then some (Json.obj [], rest) else
            match parseMembers fuel (d :: rest) with
            | some (kvs, rest') => some (Json.obj kvs, rest')
            | none => none
        | [] => none
      else if c = '[' then
        match skipWs cs' with
        | d :: rest2 =>
            if d = ']' then some (Json.arr [], rest2)
            else
              match parseElems fuel (d :: rest2) with
              | some (xs, rest) => some (Json.arr xs, rest)
              | none => none
        | [] => none
      else if c = '"' then
        match parseStringBody cs' with
        | some (chars, rest) => some (Json.str (String.mk chars), rest)
        | none => none
      else if c = 't' then
        match cs' with
        | 'r' :: 'u' :: 'e' :: rest => some (Json.bool true, rest)
        | _ => none
      else if c = 'f' then
        match cs' with
        | 'a' :: 'l' :: 's' :: 'e' :: rest => some (Json.bool false, rest)
        | _ => none
      else if c = 'n' then
        match cs' with
        | 'u' :: 'l' :: 'l' :: rest => some (Json.null, rest)
        | _ => none
      else if c = '-' then
        match cs' with
        | d :: cs2 =>
            if d.isDigit then
              let (n, rest) := digitsVal (d.toNat - 48) cs2
              some (Json.num (-(n : Int)), rest)
            else none
        | [] => none
      else if c.isDigit then
        let (n, rest) := digitsVal (c.toNat - 48) cs'
        some (Json.num (n : Int), rest)
      else none

/-- Elements of a non-empty array, consuming the closing bracket. -/
def parseElems : Nat → List Char → Option (List Json × List Char)
  | 0, _ => none
  | fuel + 1, cs =>
    match parseValue fuel cs with
    | some (v, rest) =>
      (match skipWs rest with
       | d :: rest' =>
           if d = ',' then
             match parseElems fuel rest' with
             | some (xs, rest2) => some (v :: xs, rest2)
             | none => none
           else if d = ']' then some ([v], rest')
           else none
       | [] => none)
    | none => none

/-- Members of a non-empty object, consuming the closing brace. -/
def parseMembers : Nat → List Char → Option (List (String × Json) × List Char)
  | 0, _ => none
  | fuel + 1, cs =>
    match skipWs cs with
    | c :: cs' =>
      if c = '"' then
        (match parseStringBody cs' with
         | some (kcs, rest) =>
           (match skipWs rest with
            | e :: rest' =>
              if e = ':' then
                (match parseValue fuel rest' with
                 | some (v, rest2) =>
                   (match skipWs rest2 with
                    | d :: rest3 =>
                        if d = ',' then
                          match parseMembers fuel rest3 with
                          | some (kvs, rest4) =>
                              some ((String.mk kcs, v) :: kvs, rest4)
                          | none => none
                        else if d = rbrace then
                          some ([(String.mk kcs, v)], rest3)
                        else none
                    | [] => none)
                 | none => none)
              else none
            | [] => none)
         | none => none)
      else none
    | [] => none

end

/-- Parse a complete JSON document, as `json.Unmarshal` accepts it:
one value with only whitespace around it. -/
def parseJson (s : String) : Option Json :=
  match parseValue (2 * s.toList.length + 2) s.toList with
  | some (j, rest) => if skipWs rest = [] then some j else none
  | none => none

/-! ## Parser / renderer round trip -/

/-- Input that may legitimately follow a rendered value: nothing, or a
separator / closer. -/
def restOk : List Char → Prop
  | [] => True
  | c :: _ => c = ',' ∨ c = ']' ∨ c = rbrace

theorem hexVal_hexDigitChar {k : Nat} (h : k < 16) :
    hexVal (hexDigitChar k) = some k := by
  interval_cases k <;> rfl

theorem hexDigitChar_isDigit {k : Nat} (h : k < 10) :
    (hexDigitChar k).isDigit = true := by
  interval_cases k <;> decide

theorem hexDigitChar_toNat {k : Nat} (h : k < 10) :
    (hexDigitChar k).toNat = 48 + k := by
  interval_cases k <;> decide

/-- The head of the remaining input is not a digit (so a number token
stops there). -/
def nonDigitHead : List Char → Prop
  | [] => True
  | c :: _ => c.isDigit = false

/-- A digit character is none of the characters the value parser
dispatches on before reaching the number branch, nor a closer. -/
theorem digit_not_special {c : Char} (h : c.isDigit = true) :
    isWsChar c = false ∧ c ≠ lbrace ∧ c ≠ '[' ∧ c ≠ '"' ∧ c ≠ 't' ∧
    c ≠ 'f' ∧ c ≠ 'n' ∧ c ≠ '-' ∧ c ≠ ']' ∧ c ≠ rbrace ∧ c ≠ ',' := by
  have hws : isWsChar c = false := by
    cases hc : isWsChar c
    · rfl
    · exfalso
      simp only [isWsChar, Bool.or_eq_true, decide_eq_true_eq] at hc
      rcases hc with ((rfl | rfl) | rfl) | rfl <;> exact absurd h (by decide)
  refine ⟨hws, ?_, ?_, ?_, ?_, ?_, ?_, ?_, ?_, ?_, ?_⟩ <;>
    (rintro rfl; exact absurd h (by decide))

theorem restOk_nonDigit {rest : List Char} (h : restOk rest) :
    nonDigitHead rest := by
  match rest with
  | [] => trivial
  | c :: cs =>
      rcases h with rfl | rfl | rfl <;> simp +decide [nonDigitHead]

theorem natDigits_ne_nil (n : Nat) : natDigits n ≠ [] := by
  rw [natDigits]
  split <;> simp

theorem natDigits_all_digit (n : Nat) : ∀ c ∈ natDigits n, c.isDigit = true := by
  induction n using natDigits.induct with
  | case1 n h =>
      intro c hc
      rw [natDigits, if_pos h] at hc
      simp at hc
      subst hc
      exact hexDigitChar_isDigit (by omega)
  | case2 n h ih =>
      intro c hc
      rw [natDigits, if_neg h] at hc
      rcases List.mem_append.mp hc with h1 | h1
      · exact ih c h1
      · simp at h1
        subst h1
        exact hexDigitChar_isDigit (Nat.mod_lt _ (by omega))

theorem digitsVal_stop {rest : List Char} (h : nonDigitHead rest)
    (acc : Nat) : digitsVal acc rest = (acc, rest) := by
  match rest with
  | [] => rfl
  | c :: cs =>
      have hc : c.isDigit = false := h
      simp [digitsVal, hc]

theorem digitsVal_digits_append (l : List Char) (rest : List Char)
    (hdig : ∀ c ∈ l, c.isDigit = true) (acc : Nat) :
    digitsVal acc (l ++ rest) =
      digitsVal (l.foldl (fun a c => a * 10 + (c.toNat - 48)) acc) rest := by
  induction l generalizing acc with
  | nil => rfl
  | cons c cs ih =>
      rw [List.cons_append, digitsVal, if_pos (hdig c (by simp)),
        ih (fun x hx => hdig x (by simp [hx])), List.foldl_cons]

theorem natDigits_foldl (n : Nat) : ∀ acc : Nat,
    (natDigits n).foldl (fun a c => a * 10 + (c.toNat - 48)) acc =
      acc * 10 ^ (natDigits n).length + n := by
  induction n using natDigits.induct with
  | case1 n h =>
      intro acc
      rw [natDigits, if_pos h]
      simp [hexDigitChar_toNat (show n < 10 by omega)]
  | case2 n h ih =>
      intro acc
      rw [natDigits, if_neg h]
      rw [List.foldl_append, ih]
      simp [hexDigitChar_toNat (show n % 10 < 10 from Nat.mod_lt _ (by omega)),
        pow_succ]
      ring_nf
      omega

/-- Parsing the decimal rendering of `n` reconstructs `n`. -/
theorem natDigits_parse (n : Nat) (rest : List Char)
    (h : nonDigitHead rest) :
    ∃ d ds, natDigits n = d :: ds ∧ d.isDigit = true ∧
      digitsVal (d.toNat - 48) (ds ++ rest) = (n, rest) := by
  obtain ⟨d, ds, hds⟩ : ∃ d ds, natDigits n = d :: ds := by
    cases hnd : natDigits n with
    | nil => exact absurd hnd (natDigits_ne_nil n)
    | cons d ds => exact ⟨d, ds, rfl⟩
  have hd : d.isDigit = true := natDigits_all_digit n d (by simp [hds])
  refine ⟨d, ds, hds, hd, ?_⟩
  have hall : ∀ c ∈ ds, c.isDigit = true := fun c hc =>
    natDigits_all_digit n c (by simp [hds, hc])
  rw [digitsVal_digits_append ds rest hall, digitsVal_stop h]
  have := natDigits_foldl n 0
  rw [hds] at this
  simp only [List.foldl_cons, Nat.zero_mul, Nat.zero_add] at this
  rw [this]

theorem escape_roundtrip (l : List Char) (rest : List Char) :
    parseStringBody ((l.map escapeChar).flatten ++ '"' :: rest) =
      some (l, rest) := by
  induction l with
  | nil =>
      rw [List.map_nil, List.flatten_nil, List.nil_append, parseStringBody.eq_def]
      simp
  | cons c cs ih =>
      rw [List.map_cons, List.flatten_cons, List.append_assoc]
      by_cases h1 : c = '"'
      · subst h1
        rw [show escapeChar '"' = ['\\', '"'] from rfl]
        rw [List.cons_append, List.cons_append, parseStringBody.eq_def]
        simp +decide [unescapeChar, ih]
      · by_cases h2 : c = '\\'
        · subst h2
          rw [show escapeChar '\\' = ['\\', '\\'] from rfl]
          rw [List.cons_append, List.cons_append, parseStringBody.eq_def]
          simp +decide [unescapeChar, ih]
        · by_cases h3 : c = '\n'
          · subst h3
            rw [show escapeChar '\n' = ['\\', 'n'] from rfl]
            rw [List.cons_append, List.cons_append, parseStringBody.eq_def]
            simp +decide [unescapeChar, ih]
          · by_cases h4 : c = '\t'
            · subst h4
              rw [show escapeChar '\t' = ['\\', 't'] from rfl]
              rw [List.cons_append, List.cons_append, parseStringBody.eq_def]
              simp +decide [unescapeChar, ih]
            · by_cases h5 : c = '\r'
              · subst h5
                rw [show escapeChar '\r' = ['\\', 'r'] from rfl]
                rw [List.cons_append, List.cons_append, parseStringBody.eq_def]
                simp +decide [unescapeChar, ih]
              · by_cases h6 : c.toNat < 32
                · have e1 : hexVal (hexDigitChar (c.toNat / 16)) =
                      some (c.toNat / 16) := hexVal_hexDigitChar (by omega)
                  have e2 : hexVal (hexDigitChar (c.toNat % 16)) =
                      some (c.toNat % 16) := hexVal_hexDigitChar (by omega)
                  rw [show escapeChar c = ['\\', 'u', '0', '0',
                      hexDigitChar (c.toNat / 16), hexDigitChar (c.toNat % 16)]
                    from by simp [escapeChar, h1, h2, h3, h4, h5, h6]]
                  simp only [List.cons_append, List.nil_append]
                  rw [parseStringBody.eq_def]
                  simp only [reduceIte, show hexVal '0' = some 0 from rfl, e1, e2,
                    List.nil_append]
                  have hlt : 0 * 4096 + 0 * 256 + c.toNat / 16 * 16 +
                      c.toNat % 16 < 55296 := by omega
                  rw [if_pos hlt, ih]
                  have hc : Char.ofNat (0 * 4096 + 0 * 256 +
                      c.toNat / 16 * 16 + c.toNat % 16) = c := by
                    have he : 0 * 4096 + 0 * 256 + c.toNat / 16 * 16 +
                        c.toNat % 16 = c.toNat := by omega
                    rw [he, Char.ofNat_toNat]
                  rw [hc]
                  simp +decide
                · rw [show escapeChar c = [c] from by
                    simp [escapeChar, h1, h2, h3, h4, h5, h6]]
                  rw [List.cons_append, List.nil_append, parseStringBody.eq_def]
                  simp +decide [h1, h2, h6, ih]

theorem skipWs_cons {c : Char} (h : isWsChar c = false) (cs : List Char) :
    skipWs (c :: cs) = c :: cs := by
  simp [skipWs, h]

theorem string_mk_toList (s : String) : String.mk s.toList = s := rfl

/-- Every rendered value starts with a character that is not whitespace
and not a closer. -/
theorem renderJson_head (j : Json) :
    ∃ c cs, renderJson j = c :: cs ∧ isWsChar c = false ∧ c ≠ ']' ∧
      c ≠ rbrace := by
  cases j with
  | null =>
      exact ⟨'n', ['u', 'l', 'l'], by simp [renderJson], by decide, by decide,
        by decide⟩
  | bool b =>
      cases b with
      | true =>
          exact ⟨'t', ['r', 'u', 'e'], by simp [renderJson], by decide,
            by decide, by decide⟩
      | false =>
          exact ⟨'f', ['a', 'l', 's', 'e'], by simp [renderJson], by decide,
            by decide, by decide⟩
  | num n =>
      by_cases hn : n < 0
      · refine ⟨'-', natDigits n.natAbs, ?_, by decide, by decide, by decide⟩
        simp [renderJson, renderInt, hn]
      · obtain ⟨d, ds, hds, hdig, _⟩ := natDigits_parse n.toNat [] trivial
        obtain ⟨hws, _, _, _, _, _, _, _, hne1, hne2, _⟩ := digit_not_special hdig
        refine ⟨d, ds, ?_, hws, hne1, hne2⟩
        simp [renderJson, renderInt, hn, hds]
  | str s =>
      exact ⟨'"', (s.toList.map escapeChar).flatten ++ ['"'],
        by simp [renderJson, renderString], by decide, by decide, by decide⟩
  | arr xs =>
      exact ⟨'[', renderArr xs ++ [']'], by simp [renderJson], by decide,
        by decide, by decide⟩
  | obj kvs =>
      exact ⟨lbrace, renderObj kvs ++ [rbrace], by simp [renderJson], by decide,
        by decide, by decide⟩

theorem renderJson_length_pos (j : Json) : 0 < (renderJson j).length := by
  obtain ⟨c, cs, hc, -, -, -⟩ := renderJson_head j
  simp [hc]

/-- Parsing inverts rendering: the mutual statement, by induction on the
parser fuel. -/
theorem parse_render_mutual (fuel : Nat) :
    (∀ j rest, (renderJson j).length + 1 ≤ fuel → restOk rest →
       parseValue fuel (renderJson j ++ rest) = some (j, rest)) ∧
    (∀ x xs rest, (renderArr (x :: xs)).length + 2 ≤ fuel → restOk rest →
       parseElems fuel (renderArr (x :: xs) ++ ']' :: rest) =
         some (x :: xs, rest)) ∧
    (∀ k v kvs rest, (renderObj ((k, v) :: kvs)).length + 1 ≤ fuel → restOk rest →
       parseMembers fuel (renderObj ((k, v) :: kvs) ++ rbrace :: rest) =
         some ((k, v) :: kvs, rest)) := by
  induction fuel with
  | zero =>
      exact ⟨fun j rest hf hr => absurd hf (by omega),
        fun x xs rest hf hr => absurd hf (by omega),
        fun k v kvs rest hf hr => absurd hf (by omega)⟩
  | succ f ih =>
      obtain ⟨ihP, ihQ, ihR⟩ := ih
      have hP : ∀ j rest, (renderJson j).length + 1 ≤ f + 1 → restOk rest →
          parseValue (f + 1) (renderJson j ++ rest) = some (j, rest) := by
        intro j rest hf hr
        cases j with
        | null =>
            have h1 : renderJson Json.null = ['n', 'u', 'l', 'l'] := by
              simp [renderJson]
            rw [h1]
            simp +decide [parseValue, skipWs]
        | bool b =>
            cases b with
            | true =>
                have h1 : renderJson (Json.bool true) = ['t', 'r', 'u', 'e'] := by
                  simp [renderJson]
                rw [h1]
                simp +decide [parseValue, skipWs]
            | false =>
                have h1 : renderJson (Json.bool false) =
                    ['f', 'a', 'l', 's', 'e'] := by simp [renderJson]
                rw [h1]
                simp +decide [parseValue, skipWs]
        | num n =>
            by_cases hn : n < 0
            · obtain ⟨d, ds, hds, hdig, hdv⟩ :=
                natDigits_parse n.natAbs rest (restOk_nonDigit hr)
              have h1 : renderJson (Json.num n) ++ rest =
                  '-' :: d :: (ds ++ rest) := by
                simp [renderJson, renderInt, hn, hds]
              rw [h1]
              have hna : (-(n.natAbs : Int)) = n := by omega
              simp +decide [parseValue, skipWs, hdig, hdv, hna]
              rw [abs_of_neg hn, neg_neg]
            · obtain ⟨d, ds, hds, hdig, hdv⟩ :=
                natDigits_parse n.toNat rest (restOk_nonDigit hr)
              obtain ⟨hws, hs1, hs2, hs3, hs4, hs5, hs6, hs7, _, _, _⟩ :=
                digit_not_special hdig
              have h1 : renderJson (Json.num n) ++ rest = d :: (ds ++ rest) := by
                simp [renderJson, renderInt, hn, hds]
              rw [h1]
              have hna : ((n.toNat : Int)) = n := by omega
              simp +decide [parseValue, skipWs, hws, hs1, hs2, hs3, hs4, hs5,
                hs6, hs7, hdig, hdv, hna]
        | str s =>
            have h1 : renderJson (Json.str s) ++ rest =
                '"' :: ((s.toList.map escapeChar).flatten ++ '"' :: rest) := by
              simp [renderJson, renderString]
            rw [h1]
            simp +decide [parseValue, skipWs, escape_roundtrip,
              string_mk_toList]
        | arr xs =>
            cases xs with
            | nil =>
                have h1 : renderJson (Json.arr []) ++ rest =
                    '[' :: ']' :: rest := by simp [renderJson, renderArr]
                rw [h1]
                simp +decide [parseValue, skipWs]
            | cons x xs =>
                obtain ⟨c0, cs0, hc0, hws0, hne0, -⟩ := renderJson_head x
                have hlen : (renderArr (x :: xs)).length + 2 ≤ f := by
                  have h2 : (renderJson (Json.arr (x :: xs))).length =
                      (renderArr (x :: xs)).length + 2 := by
                    simp [renderJson]
                  omega
                obtain ⟨tl, htl⟩ : ∃ tl, renderArr (x :: xs) = c0 :: tl := by
                  cases xs with
                  | nil => exact ⟨cs0, by simp [renderArr, hc0]⟩
                  | cons y ys =>
                      exact ⟨cs0 ++ ',' :: renderArr (y :: ys),
                        by simp [renderArr, hc0]⟩
                have h1 : renderJson (Json.arr (x :: xs)) ++ rest =
                    '[' :: (c0 :: (tl ++ ']' :: rest)) := by
                  simp [renderJson, htl]
                rw [h1]
                have hback : c0 :: (tl ++ ']' :: rest) =
                    renderArr (x :: xs) ++ ']' :: rest := by
                  simp [htl]
                simp +decide only [parseValue, skipWs, hws0, Bool.false_eq_true,
                  reduceIte, if_neg, hne0]
                rw [hback, ihQ x xs rest hlen hr]
        | obj kvs =>
            cases kvs with
            | nil =>
                have h1 : renderJson (Json.obj []) ++ rest =
                    lbrace :: rbrace :: rest := by simp [renderJson, renderObj]
                rw [h1]
                simp +decide [parseValue, skipWs]
            | cons kv kvs =>
                obtain ⟨k, v⟩ := kv
                have hlen : (renderObj ((k, v) :: kvs)).length + 1 ≤ f := by
                  have h2 : (renderJson (Json.obj ((k, v) :: kvs))).length =
                      (renderObj ((k, v) :: kvs)).length + 2 := by
                    simp [renderJson]
                  omega
                obtain ⟨tl, htl⟩ : ∃ tl,
                    renderObj ((k, v) :: kvs) = '"' :: tl := by
                  cases kvs with
                  | nil =>
                      exact ⟨(k.toList.map escapeChar).flatten ++
                        '"' :: ':' :: renderJson v,
                        by simp [renderObj, renderString]⟩
                  | cons kv2 kvs2 =>
                      exact ⟨(k.toList.map escapeChar).flatten ++
                        '"' :: ':' :: (renderJson v ++
                          ',' :: renderObj (kv2 :: kvs2)),
                        by simp [renderObj, renderString]⟩
                have h1 : renderJson (Json.obj ((k, v) :: kvs)) ++ rest =
                    lbrace :: ('"' :: (tl ++ rbrace :: rest)) := by
                  simp [renderJson, htl]
                rw [h1]
                have hback : '"' :: (tl ++ rbrace :: rest) =
                    renderObj ((k, v) :: kvs) ++ rbrace :: rest := by
                  simp [htl]
                simp +decide only [parseValue, skipWs, reduceIte]
                rw [hback, ihR k v kvs rest hlen hr]
      refine ⟨hP, ?_, ?_⟩
      · intro x xs rest hf hr
        cases xs with
        | nil =>
            have hlen : (renderJson x).length + 1 ≤ f := by
              have h2 : renderArr [x] = renderJson x := by simp [renderArr]
              rw [h2] at hf
              omega
            have h1 : renderArr [x] ++ ']' :: rest =
                renderJson x ++ ']' :: rest := by simp [renderArr]
            rw [h1]
            simp only [parseElems]
            rw [ihP x (']' :: rest) (by omega) (by right; left; rfl)]
            simp +decide [skipWs]
        | cons y ys =>
            have hx : 0 < (renderJson x).length := renderJson_length_pos x
            have hlen0 : (renderArr (x :: y :: ys)).length =
                (renderJson x).length + 1 + (renderArr (y :: ys)).length := by
              simp [renderArr]
              omega
            have hlen1 : (renderJson x).length + 1 ≤ f := by omega
            have hlen2 : (renderArr (y :: ys)).length + 2 ≤ f := by omega
            have h1 : renderArr (x :: y :: ys) ++ ']' :: rest =
                renderJson x ++ ',' :: (renderArr (y :: ys) ++ ']' :: rest) := by
              simp [renderArr]
            rw [h1]
            simp only [parseElems]
            rw [ihP x (',' :: (renderArr (y :: ys) ++ ']' :: rest)) (by omega)
              (by left; rfl)]
            simp +decide [skipWs]
            rw [ihQ y ys rest hlen2 hr]
      · intro k v kvs rest hf hr
        have hsk : (renderString k).length =
            (k.toList.map escapeChar).flatten.length + 2 := by
          simp [renderString]
        cases kvs with
        | nil =>
            have hlenO : (renderObj [(k, v)]).length =
                (renderString k).length + 1 + (renderJson v).length := by
              simp [renderObj]
              omega
            have hlen : (renderJson v).length + 1 ≤ f := by omega
            have h1 : renderObj [(k, v)] ++ rbrace :: rest =
                '"' :: ((k.toList.map escapeChar).flatten ++
                  '"' :: (':' :: (renderJson v ++ rbrace :: rest))) := by
              simp [renderObj, renderString]
            rw [h1]
            simp only [parseMembers]
            rw [skipWs_cons (by decide)]
            simp +decide only [reduceIte]
            rw [escape_roundtrip]
            simp +decide [skipWs]
            rw [ihP v (rbrace :: rest) (by omega) (by right; right; rfl)]
            simp +decide [skipWs, string_mk_toList]
        | cons kv2 kvs2 =>
            obtain ⟨k2, v2⟩ := kv2
            have hlenO : (renderObj ((k, v) :: (k2, v2) :: kvs2)).length =
                (renderString k).length + 1 + (renderJson v).length + 1 +
                  (renderObj ((k2, v2) :: kvs2)).length := by
              simp [renderObj]
              omega
            have hlen1 : (renderJson v).length + 1 ≤ f := by omega
            have hlen2 : (renderObj ((k2, v2) :: kvs2)).length + 1 ≤ f := by
              omega
            have h1 : renderObj ((k, v) :: (k2, v2) :: kvs2) ++ rbrace :: rest =
                '"' :: ((k.toList.map escapeChar).flatten ++
                  '"' :: (':' :: (renderJson v ++
                    ',' :: (renderObj ((k2, v2) :: kvs2) ++ rbrace :: rest)))) := by
              simp [renderObj, renderString]
            rw [h1]
            simp only [parseMembers]
            rw [skipWs_cons (by decide)]
            simp +decide only [reduceIte]
            rw [escape_roundtrip]
            simp +decide [skipWs]
            rw [ihP v (',' :: (renderObj ((k2, v2) :: kvs2) ++ rbrace :: rest))
              (by omega) (by left; rfl)]
            simp +decide [skipWs]
            rw [ihR k2 v2 kvs2 rest hlen2 hr]


/-- Round trip at the top level: `json.Unmarshal` of a rendered value
recovers the value. -/
theorem parseJson_render (j : Json) : parseJson (renderJsonStr j) = some j := by
  have hmain := (parse_render_mutual (2 * (renderJson j).length + 2)).1 j []
    (by omega) trivial
  rw [List.append_nil] at hmain
  unfold parseJson renderJsonStr
  simp only [show (String.mk (renderJson j)).toList = renderJson j from rfl]
  rw [hmain]
  simp [skipWs]

/-! ## Go error values (`errors.go`, `fmt.Errorf`) -/

inductive GoError where
  | laraError (status : Int) (errType : String) (message : String) : GoError
  | laraConnectionError (message : String) : GoError
  | laraTimeoutError (message : String) : GoError
  | errorf (message : String) (cause : Option GoError) : GoError

/-- `Error()` of each error value (`errors.go`; `errorf` carries its full
formatted message). -/
def GoError.errText : GoError → String
  | .laraError _ t m => t ++ ": " ++ m
  | .laraConnectionError m => "ConnectionError: " ++ m
  | .laraTimeoutError m => "TimeoutError: " ++ m
  | .errorf m _ => m

/-- `fmt.Errorf("<prefix>%w", err)`: the formatted message with the cause
retained for unwrapping. -/
def wrapErr (pre : String) (e : GoError) : GoError :=
  GoError.errorf (pre ++ e.errText) (some e)

/-- The typed Timeout kind of the error taxonomy. -/
def GoError.isTimeoutKind : GoError → Bool
  | .laraTimeoutError _ => true
  | _ => false

def GoError.isConnectionKind : GoError → Bool
  | .laraConnectionError _ => true
  | _ => false

/-- A `*LaraError` (type assertion succeeds) whose `Status` is 404. -/
def GoError.isLara404 : GoError → Bool
  | .laraError s _ _ => s == 404
  | _ => false

/-! ## Transport outcome classification (`Client.request`, lines 119-151) -/

/-- `strings.Contains`. -/
def containsSubstr (s sub : String) : Bool := decide (sub.toList <:+: s.toList)

/-- Lines 120-125: a transport-level failure is a timeout error exactly
when its message contains "timeout", otherwise a connection error. -/
def classifyTransportError (msg : String) : GoError :=
  if containsSubstr msg "timeout" then GoError.laraTimeoutError msg
  else GoError.laraConnectionError msg

/-- The decoded `apiError` struct of `Client.request`. -/
structure ApiErrorBody where
  status : Int
  errType : String
  errMessage : String

/-- ASCII lowercasing (the fold Go uses for JSON field names). -/
def strToLower (s : String) : String := String.mk (s.toList.map Char.toLower)

/-- Go JSON field lookup: case-insensitive match, last occurrence wins. -/
def goField (kvs : List (String × Json)) (name : String) : Option Json :=
  ((kvs.filter (fun kv => strToLower kv.1 == strToLower name)).getLast?).map
    (fun kv => kv.2)

/-- Unmarshal a JSON value into an `int` field (absent or null leaves the
zero value; a wrong shape is an error). -/
def goIntField : Option Json → Option Int
  | none => some 0
  | some (Json.num n) => some n
  | some Json.null => some 0
  | some _ => none

/-- Unmarshal a JSON value into a `string` field. -/
def goStrField : Option Json → Option String
  | none => some ""
  | some (Json.str s) => some s
  | some Json.null => some ""
  | some _ => none

/-- `json.Unmarshal` of the response body into the anonymous
`{status, error:{type,message}}` struct of `Client.request`. -/
def goUnmarshalApiError : Json → Option ApiErrorBody
  | Json.null => some ⟨0, "", ""⟩
  | Json.obj kvs => do
      let status ← goIntField (goField kvs "status")
      match goField kvs "error" with
      | none => some ⟨status, "", ""⟩
      | some Json.null => some ⟨status, "", ""⟩
      | some (Json.obj ekvs) => do
          let ty ← goStrField (goField ekvs "type")
          let msg ← goStrField (goField ekvs "message")
          some ⟨status, ty, msg⟩
      | some _ => none
  | _ => none

/-- Lines 133-149: classification of a non-2xx response body. -/
def classifyErrorResponse (status : Int) (body : String) : GoError :=
  match (parseJson body).bind goUnmarshalApiError with
  | some ae =>
      if ae.errType = "" then GoError.errorf ("API error: " ++ body) none
      else GoError.laraError ae.status ae.errType ae.errMessage
  | none => GoError.errorf ("API error: " ++ body) none

/-- What the HTTP exchange produced: a transport-level error, or a status
code with a body. -/
inductive TransportResult where
  | transportError (msg : String) : TransportResult
  | httpResponse (status : Int) (body : String) : TransportResult

/-- The outcome classification of `Client.request`: transport errors are
split into timeout/connection, non-2xx statuses into structured/generic
API errors, and 2xx responses return the raw body. -/
def requestOutcome : TransportResult → Except GoError String
  | TransportResult.transportError msg => Except.error (classifyTransportError msg)
  | TransportResult.httpResponse status body =>
      if status < 200 ∨ 300 ≤ status then
        Except.error (classifyErrorResponse status body)
      else Except.ok body

/-- `Client.handleContent` (lines 175-185): unwrap the `content` envelope
field and decode it for the caller.  The second `json.Unmarshal` of the
raw bytes is modelled by returning the parsed `content` value itself. -/
def handleContent (respBody : String) : Except GoError Json :=
  match parseJson respBody with
  | none => Except.error (GoError.errorf "failed to parse API response" none)
  | some j =>
      match j with
      | Json.obj kvs =>
          match goField kvs "content" with
          | some c => Except.ok c
          | none => Except.error (GoError.errorf "unexpected end of JSON input" none)
      | Json.null => Except.error (GoError.errorf "unexpected end of JSON input" none)
      | _ => Except.error (GoError.errorf "failed to parse API response" none)

/-! ## Request signing and construction (`Client.request`, `Client.sign`) -/

structure Client where
  accessKeyID : String
  accessKeySecret : String
  baseURL : String
  sdkName : String
  sdkVersion : String

/-- `strings.TrimRight(baseURL, "/")`. -/
def trimRightSlash (s : String) : String :=
  String.mk ((s.toList.reverse.dropWhile (fun c => c = '/')).reverse)

def newClient (accessKeyID accessKeySecret baseURL : String) : Client :=
  ⟨accessKeyID, accessKeySecret, trimRightSlash baseURL, "lara-go", "1.0.3"⟩

/-- `strings.ToUpper` (ASCII, which covers HTTP methods). -/
def strToUpper (s : String) : String := String.mk (s.toList.map Char.toUpper)

/-- `Client.sign` (lines 159-173): HMAC-SHA256 over the newline-joined
canonical string, base64-encoded. -/
def Client.sign (c : Client) (method path contentMD5 contentType date : String) :
    String :=
  let stringToSign := strToUpper method ++ "\n" ++ path ++ "\n" ++ contentMD5 ++
    "\n" ++ contentType ++ "\n" ++ date
  base64Encode (hmacSha256 (strBytes c.accessKeySecret) (strBytes stringToSign))

/-- The signature exactly as §4.1 of the spec words it: concatenate the
five fields with newlines, HMAC-SHA256 with the secret, base64. -/
def specSignature (secret method path contentHash contentType date : String) :
    String :=
  base64Encode (hmacSha256 (strBytes secret)
    (strBytes (String.intercalate "\n"
      [strToUpper method, path, contentHash, contentType, date])))

/-! ## Header map (`net/http` `Header.Set` / `Header.Get`) -/

/-- `validHeaderFieldByte` of `net/textproto`. -/
def validHeaderFieldChar (c : Char) : Bool :=
  c.isAlphanum ||
    [' ', '!', '#', '$', '%', '&', '*', '+', '-', '.', '^', '_',
      Char.ofNat 96, '|', '~'].contains c && c ≠ ' '

def canonChars : Bool → List Char → List Char
  | _, [] => []
  | upper, c :: cs =>
      (if upper then c.toUpper else c.toLower) :: canonChars (c = '-') cs

/-- `textproto.CanonicalMIMEHeaderKey`: keys with invalid bytes pass
through unchanged; valid keys get canonical capitalisation. -/
def canonicalKey (s : String) : String :=
  if s.toList.all validHeaderFieldChar then String.mk (canonChars true s.toList)
  else s

/-- `Header.Set`: a map update — replace any binding of the canonical key.
(`http.Header` is a Go map, so binding order is meaningless; `Get` is the
observable interface.) -/
def headerSet (hs : List (String × String)) (k v : String) :
    List (String × String) :=
  let ck := canonicalKey k
  (ck, v) :: hs.filter (fun kv => kv.1 != ck)

/-- `Header.Get`: empty string when absent. -/
def headerGet (hs : List (String × String)) (k : String) : String :=
  match hs.find? (fun kv => kv.1 == canonicalKey k) with
  | some kv => kv.2
  | none => ""

/-! ## Request body construction (`Client.request`, lines 53-92) -/

/-- `multipart` quote escaping for field names. -/
def escapeQuotes (s : String) : String :=
  String.mk ((s.toList.map (fun c =>
    if c = '\\' then ['\\', '\\'] else if c = '"' then ['\\', '"'] else [c])).flatten)

/-- The boundary line before a part (`--boundary`, preceded by CRLF for
every part after the first). -/
def partHeader (boundary : String) (first : Bool) : String :=
  (if first then "" else "\r\n") ++ "--" ++ boundary ++ "\r\n"

/-- Headers of a `CreateFormFile` part (sorted, as Go writes them). -/
def formFilePart (field : String) : String :=
  "Content-Disposition: form-data; name=\"" ++ escapeQuotes field ++
  "\"; filename=\"" ++ escapeQuotes field ++ "\"\r\n" ++
  "Content-Type: application/octet-stream\r\n\r\n"

/-- Headers of a `WriteField` part. -/
def formFieldPart (field : String) : String :=
  "Content-Disposition: form-data; name=\"" ++ escapeQuotes field ++ "\"\r\n\r\n"

def multipartConcat (boundary : String) : Bool → List String → String
  | _, [] => ""
  | first, p :: ps => partHeader boundary first ++ p ++ multipartConcat boundary false ps

/-- The full multipart buffer: one form part per attachment, then the
`"json"` field when a JSON body is also supplied, then the closing
delimiter written by `Writer.Close`. -/
def multipartBody (boundary : String) (files : List (String × String))
    (jsonField : Option String) : String :=
  multipartConcat boundary true
    (files.map (fun fp => formFilePart fp.1 ++ fp.2) ++
      (match jsonField with
       | some js => [formFieldPart "json" ++ js]
       | none => [])) ++ "\r\n--" ++ boundary ++ "--\r\n"

def containsAny (s chars : String) : Bool :=
  s.toList.any (fun c => chars.toList.contains c)

/-- `Writer.FormDataContentType`. -/
def formDataContentType (boundary : String) : String :=
  if containsAny boundary "()<>@,;:\\\"/[]?= " then
    "multipart/form-data; boundary=\"" ++ boundary ++ "\""
  else "multipart/form-data; boundary=" ++ boundary

/-- The three body/`Content-Type`/`Content-MD5` fields chosen by
`Client.request`. -/
structure RequestBody where
  bodyReader : Option String
  contentType : String
  contentMD5 : String

/-- Lines 53-92 of `Client.request`: multipart when files are present
(JSON body, if any, added as the `"json"` field), JSON alone otherwise,
nothing when neither is supplied.  The multipart boundary is random in Go
and is a parameter here; file streams are byte strings. -/
def buildBody (boundary : String) (files : List (String × String))
    (body : Option Json) : RequestBody :=
  if files.length > 0 then
    let b := multipartBody boundary files (body.map renderJsonStr)
    ⟨some b, formDataContentType boundary, md5Hex (strBytes b)⟩
  else
    match body with
    | some j => ⟨some (renderJsonStr j), "application/json",
        md5Hex (strBytes (renderJsonStr j))⟩
    | none => ⟨none, "", ""⟩

/-- Line 40-42: a path not starting with `/` gets one prepended. -/
def normalizePath (path : String) : String :=
  if path.startsWith "/" then path else "/" ++ path

/-- Lines 99-112: the fixed headers, the conditional content headers, then
the caller's extra headers in order. -/
def preAuthHeaders (c : Client) (method dateStr contentType contentMD5 : String)
    (headers : List (String × String)) : List (String × String) :=
  let h0 := headerSet [] "X-HTTP-Method-Override" method
  let h1 := headerSet h0 "Date" dateStr
  let h2 := headerSet h1 "X-Lara-SDK-Name" c.sdkName
  let h3 := headerSet h2 "X-Lara-SDK-Version" c.sdkVersion
  let h4 := if contentType ≠ "" then headerSet h3 "Content-Type" contentType else h3
  let h5 := if contentMD5 ≠ "" then headerSet h4 "Content-MD5" contentMD5 else h4
  headers.foldl (fun acc kv => headerSet acc kv.1 kv.2) h5

/-- Lines 99-117: all headers including the Authorization header, set
after the caller's headers and only when both credentials are non-empty;
the signature uses the Date header's final value. -/
def requestHeaders (c : Client) (method path dateStr contentType contentMD5 : String)
    (headers : List (String × String)) : List (String × String) :=
  let h := preAuthHeaders c method dateStr contentType contentMD5 headers
  if c.accessKeyID ≠ "" ∧ c.accessKeySecret ≠ "" then
    headerSet h "Authorization"
      ("Lara " ++ c.accessKeyID ++ ":" ++
        c.sign method path contentMD5 contentType (headerGet h "Date"))
  else h

/-- The request construction of `Client.request` (body selection plus
header assembly on the normalized path). -/
def clientBuildRequest (c : Client) (boundary method path dateStr : String)
    (body : Option Json) (files : List (String × String))
    (headers : List (String × String)) :
    RequestBody × List (String × String) :=
  let p := normalizePath path
  let rb := buildBody boundary files body
  (rb, requestHeaders c method p dateStr rb.contentType rb.contentMD5 headers)

/-! ## Domain records -/

/-- The `Import` record (`types.go`); `beginVal`/`endVal` are the Go
fields `Begin`/`End`, and progress is the numeric completion signal. -/
structure Import where
  id : String
  beginVal : Int
  endVal : Int
  channel : Int
  size : Int
  progress : Rat

structure Memory where
  id : String
  name : String
  ownerID : String

structure Glossary where
  id : String
  name : String
  ownerID : String

/-- The `Document` record fields the wait loop and translate flow use. -/
structure Document where
  id : String
  status : String
  target : String
  filename : String
  errorReason : Option String

def DocumentStatusTranslated : String := "translated"

def DocumentStatusError : String := "error"

/-! ## Services: Get with 404-as-absence -/

/-- `MemoriesService.Get`: a `*LaraError` with status 404 becomes
`(nil, nil)`; any other failure is wrapped and returned. -/
def MemoriesServiceGet (r : Except GoError Memory) :
    Except GoError (Option Memory) :=
  match r with
  | Except.ok m => Except.ok (some m)
  | Except.error e =>
      if e.isLara404 then Except.ok none
      else Except.error (wrapErr "failed to get memory: " e)

/-- `GlossariesService.Get`, same shape. -/
def GlossariesServiceGet (r : Except GoError Glossary) :
    Except GoError (Option Glossary) :=
  match r with
  | Except.ok g => Except.ok (some g)
  | Except.error e =>
      if e.isLara404 then Except.ok none
      else Except.error (wrapErr "failed to get glossary: " e)

/-! ## The import wait loops

The loop bodies of `MemoriesService.WaitForImport` and
`GlossariesService.WaitForImport` are identical except for the timeout
message and for the glossary loop wrapping the fetch failure; both are
instances of `importWaitLoop`.  Time is modelled by the accumulated sleep
durations (fetches and callbacks take zero model time), the status-fetch
call is an oracle indexed by call number, and the events list records the
sleeps, fetches and callback invocations in order.  The `fuel` bounds the
number of iterations; `none` models a loop that has not terminated within
`fuel` iterations. -/

inductive PollEvent where
  | sleep (duration : Nat) : PollEvent
  | fetchOk (id : String) (snap : Import) : PollEvent
  | fetchErr (id : String) (e : GoError) : PollEvent
  | callback (snap : Import) : PollEvent

structure PollOut where
  result : Import
  err : Option GoError
  events : List PollEvent

def importWaitLoop (timeoutMsg : String) (onFetchErr : GoError → GoError)
    (pollingInterval : Nat) (fetch : Nat → String → Except GoError Import)
    (maxWaitTime : Option Nat) (hasCallback : Bool) :
    Nat → Import → Nat → Nat → List PollEvent → Option PollOut
  | 0, _, _, _, _ => none
  | fuel + 1, current, elapsed, calls, events =>
    if current.progress < 1 then
      if (match maxWaitTime with
          | some mw => decide (mw < elapsed)
          | none => false) then
        some ⟨current, some (GoError.errorf timeoutMsg none), events⟩
      else
        let events1 := events ++ [PollEvent.sleep pollingInterval]
        match fetch calls current.id with
        | Except.error e =>
            some ⟨current, some (onFetchErr e),
              events1 ++ [PollEvent.fetchErr current.id e]⟩
        | Except.ok updated =>
            importWaitLoop timeoutMsg onFetchErr pollingInterval fetch
              maxWaitTime hasCallback fuel updated (elapsed + pollingInterval)
              (calls + 1)
              ((events1 ++ [PollEvent.fetchOk current.id updated]) ++
                (if hasCallback then [PollEvent.callback updated] else []))
    else some ⟨current, none, events⟩

/-- `MemoriesService.WaitForImport` (lines 308-333): 2-second interval,
timeout message `"timeout waiting for import to complete"`, fetch failures
returned unchanged. -/
def memoriesWaitForImport (fetch : Nat → String → Except GoError Import)
    (maxWaitTime : Option Nat) (hasCallback : Bool) (fuel : Nat)
    (memoryImport : Import) : Option PollOut :=
  importWaitLoop "timeout waiting for import to complete" (fun e => e) 2
    fetch maxWaitTime hasCallback fuel memoryImport 0 0 []

/-- `GlossariesService.WaitForImport` (glossaries.go lines 144-168): the
service's polling interval (2 seconds from the constructor), timeout
message `"timeout waiting for glossary import to complete"`, fetch
failures wrapped as `failed to get import status: %w`. -/
def glossariesWaitForImport (pollingInterval : Nat)
    (fetch : Nat → String → Except GoError Import)
    (maxWaitTime : Option Nat) (hasCallback : Bool) (fuel : Nat)
    (glossaryImport : Import) : Option PollOut :=
  importWaitLoop "timeout waiting for glossary import to complete"
    (wrapErr "failed to get import status: ") pollingInterval
    fetch maxWaitTime hasCallback fuel glossaryImport 0 0 []

/-- The polling interval `newGlossariesService` stores. -/
def glossariesServicePollingInterval : Nat := 2

/-! ## The document translation wait loop (`types.go` lines 257-280) -/

inductive DocPollEvent where
  | sleep (duration : Nat) : DocPollEvent
  | fetchOk (id : String) (snap : Document) : DocPollEvent
  | fetchErr (id : String) (e : GoError) : DocPollEvent

structure DocPollOut where
  result : Document
  err : Option GoError
  events : List DocPollEvent

/-- `var maxWaitTime time.Duration` — the zero value. -/
def docMaxWaitTime : Nat := 0

/-- `DocumentsService.waitForTranslation`: loop until the status is
`translated` or `error`; `maxWaitTime` is the zero value so the timeout
guard (`maxWaitTime > 0 && ...`) never fires; fetch failures are returned
unchanged with the last snapshot. -/
def waitForTranslation (fetch : Nat → String → Except GoError Document) :
    Nat → Document → Nat → Nat → List DocPollEvent → Option DocPollOut
  | 0, _, _, _, _ => none
  | fuel + 1, current, elapsed, calls, events =>
    if current.status ≠ DocumentStatusTranslated ∧
        current.status ≠ DocumentStatusError then
      if 0 < docMaxWaitTime ∧ docMaxWaitTime < elapsed then
        some ⟨current, some (GoError.errorf
          "timeout waiting for translation to complete" none), events⟩
      else
        let events1 := events ++ [DocPollEvent.sleep 2]
        match fetch calls current.id with
        | Except.error e =>
            some ⟨current, some e, events1 ++ [DocPollEvent.fetchErr current.id e]⟩
        | Except.ok updated =>
            waitForTranslation fetch fuel updated (elapsed + 2) (calls + 1)
              (events1 ++ [DocPollEvent.fetchOk current.id updated])
    else some ⟨current, none, events⟩

/-- The error-status check `TranslateWithOptions` performs after the wait
(lines 241-247): an `error` status becomes a failure carrying the recorded
reason, or `"translation failed"` when none is recorded. -/
def documentTranslateErrorCheck (document : Document) : Option GoError :=
  if document.status = DocumentStatusError then
    some (GoError.errorf ("document translation failed: " ++
      (match document.errorReason with
       | some reason => reason
       | none => "translation failed")) none)
  else none

/-! ## Claim theorems -/

/-- C1: For every method, path, content hash, content type and date string,
the request signer returns exactly the base64 encoding of the HMAC-SHA256
digest, keyed by the credential secret, of the five inputs joined by
newline characters in the order UPPERCASE(method), path, contentHash,
contentType, date, with empty fields kept as empty strings; it is a pure
deterministic function with no failure modes (a total function of its
inputs), and the base64-decoded signature has length exactly 32 bytes for
every input. -/
theorem claim_C1_sign (c : Client)
    (method path contentMD5 contentType date : String) :
    c.sign method path contentMD5 contentType date =
      specSignature c.accessKeySecret method path contentMD5 contentType date ∧
    base64Decode (c.sign method path contentMD5 contentType date) =
      some (hmacSha256 (strBytes c.accessKeySecret)
        (strBytes (strToUpper method ++ "\n" ++ path ++ "\n" ++ contentMD5 ++
          "\n" ++ contentType ++ "\n" ++ date))) ∧
    ∃ bs, base64Decode (c.sign method path contentMD5 contentType date) =
      some bs ∧ bs.length = 32 := by
  have hdec : base64Decode (c.sign method path contentMD5 contentType date) =
      some (hmacSha256 (strBytes c.accessKeySecret)
        (strBytes (strToUpper method ++ "\n" ++ path ++ "\n" ++ contentMD5 ++
          "\n" ++ contentType ++ "\n" ++ date))) := by
    have h := base64_roundtrip
      (hmacSha256 (strBytes c.accessKeySecret)
        (strBytes (strToUpper method ++ "\n" ++ path ++ "\n" ++ contentMD5 ++
          "\n" ++ contentType ++ "\n" ++ date)))
      (hmacSha256_lt _ _)
    exact h
  exact ⟨rfl, hdec, _, hdec, hmacSha256_length _ _⟩

set_option maxHeartbeats 4000000 in
/-- C2: Every failed request is classified as exactly one of four kinds:
a Timeout failure when the transport-level error message indicates a
timeout; a Connection failure for any other transport-level error; an API
failure carrying status, type and message when the HTTP status is outside
[200,300) and the response body parses as the error envelope with a
non-empty type (e.g. the 404 example); and otherwise a generic API failure
carrying the raw response body text. -/
theorem claim_C2_error_classification :
    (∀ msg, requestOutcome (TransportResult.transportError msg) =
        Except.error (classifyTransportError msg) ∧
      (classifyTransportError msg).isTimeoutKind = containsSubstr msg "timeout" ∧
      (classifyTransportError msg).isConnectionKind =
        !containsSubstr msg "timeout") ∧
    (∀ status body ae, (status < 200 ∨ 300 ≤ status) →
      (parseJson body).bind goUnmarshalApiError = some ae →
      ae.errType ≠ "" →
      requestOutcome (TransportResult.httpResponse status body) =
        Except.error (GoError.laraError ae.status ae.errType ae.errMessage)) ∧
    (∀ status body, (status < 200 ∨ 300 ≤ status) →
      (∀ ae, (parseJson body).bind goUnmarshalApiError = some ae →
        ae.errType = "") →
      requestOutcome (TransportResult.httpResponse status body) =
        Except.error (GoError.errorf ("API error: " ++ body) none)) ∧
    (∀ status body, 200 ≤ status → status < 300 →
      requestOutcome (TransportResult.httpResponse status body) =
        Except.ok body) ∧
    requestOutcome (TransportResult.httpResponse 404
        "\x7b\"status\":404,\"error\":\x7b\"type\":\"NotFound\",\"message\":\"nope\"\x7d\x7d") =
      Except.error (GoError.laraError 404 "NotFound" "nope") ∧
    requestOutcome (TransportResult.httpResponse 500 "oops") =
      Except.error (GoError.errorf "API error: oops" none) := by
  refine ⟨?_, ?_, ?_, ?_, ?_, ?_⟩
  · intro msg
    refine ⟨rfl, ?_, ?_⟩ <;>
      · by_cases h : containsSubstr msg "timeout" = true
        · simp [classifyTransportError, h, GoError.isTimeoutKind,
            GoError.isConnectionKind]
        · simp only [Bool.not_eq_true] at h
          simp [classifyTransportError, h, GoError.isTimeoutKind,
            GoError.isConnectionKind]
  · intro status body ae hs hae hty
    rw [requestOutcome, if_pos hs]
    rw [classifyErrorResponse, hae]
    simp [hty]
  · intro status body hs hall
    rw [requestOutcome, if_pos hs]
    rw [classifyErrorResponse]
    cases hae : (parseJson body).bind goUnmarshalApiError with
    | none => rfl
    | some ae => simp [hall ae hae]
  · intro status body h1 h2
    rw [requestOutcome, if_neg (by omega)]
  · rfl
  · rfl

set_option maxHeartbeats 4000000 in
/-- Witness for C2: the structured-envelope branch applied at the 404
example, all hypotheses discharged concretely. -/
theorem claim_C2_error_classification_witness :
    requestOutcome (TransportResult.httpResponse 404
        "\x7b\"status\":404,\"error\":\x7b\"type\":\"NotFound\",\"message\":\"nope\"\x7d\x7d") =
      Except.error (GoError.laraError 404 "NotFound" "nope") :=
  claim_C2_error_classification.2.1 404
    "\x7b\"status\":404,\"error\":\x7b\"type\":\"NotFound\",\"message\":\"nope\"\x7d\x7d"
    ⟨404, "NotFound", "nope"⟩ (Or.inr (by omega)) rfl (by simp)

/-- The shapes the C7 claim quantifies over: object, array, string or
number. -/
def jsonDataShape : Json → Prop
  | Json.obj _ => True
  | Json.arr _ => True
  | Json.str _ => True
  | Json.num _ => True
  | _ => False

/-- C7: Envelope unwrap round-trip: for any JSON value X (object, array,
string, or number), unwrapping a successful response body of the form
`{"content": X}` and decoding into the caller's destination yields
exactly X. -/
theorem claim_C7_envelope_roundtrip (X : Json) (h : jsonDataShape X) :
    handleContent (renderJsonStr (Json.obj [("content", X)])) = Except.ok X := by
  rw [handleContent, parseJson_render]
  rfl

/-- Witness for C7 at a concrete array value. -/
theorem claim_C7_envelope_roundtrip_witness :
    handleContent (renderJsonStr (Json.obj
      [("content", Json.arr [Json.num 7, Json.str "a"])])) =
      Except.ok (Json.arr [Json.num 7, Json.str "a"]) :=
  claim_C7_envelope_roundtrip (Json.arr [Json.num 7, Json.str "a"]) trivial

/-- C10: `Memories.Get` and `Glossaries.Get` treat an API failure with
status 404 as absence (nil, nil); every other failure kind (API with a
different status, connection, timeout, decode) is returned to the caller
as an error, and success is returned as the value. -/
theorem claim_C10_get_404_absence :
    (∀ t m, MemoriesServiceGet (Except.error (GoError.laraError 404 t m)) =
      Except.ok none) ∧
    (∀ t m, GlossariesServiceGet (Except.error (GoError.laraError 404 t m)) =
      Except.ok none) ∧
    (∀ e, e.isLara404 = false →
      MemoriesServiceGet (Except.error e) =
        Except.error (wrapErr "failed to get memory: " e)) ∧
    (∀ e, e.isLara404 = false →
      GlossariesServiceGet (Except.error e) =
        Except.error (wrapErr "failed to get glossary: " e)) ∧
    (∀ s t m, s ≠ 404 → (GoError.laraError s t m).isLara404 = false) ∧
    (∀ m, (GoError.laraConnectionError m).isLara404 = false) ∧
    (∀ m, (GoError.laraTimeoutError m).isLara404 = false) ∧
    (∀ m c, (GoError.errorf m c).isLara404 = false) ∧
    (∀ m, MemoriesServiceGet (Except.ok m) = Except.ok (some m)) ∧
    (∀ g, GlossariesServiceGet (Except.ok g) = Except.ok (some g)) := by
  refine ⟨?_, ?_, ?_, ?_, ?_, ?_, ?_, ?_, ?_, ?_⟩
  · intro t m; rfl
  · intro t m; rfl
  · intro e he; simp [MemoriesServiceGet, he]
  · intro e he; simp [GlossariesServiceGet, he]
  · intro s t m hs; simp [GoError.isLara404, hs]
  · intro m; rfl
  · intro m; rfl
  · intro m c; rfl
  · intro m; rfl
  · intro g; rfl

/-- Witness for C10: the 404-absence branch and a non-404 branch at
concrete errors. -/
theorem claim_C10_get_404_absence_witness :
    MemoriesServiceGet (Except.error (GoError.laraError 404 "NotFound" "nope")) =
      Except.ok none ∧
    MemoriesServiceGet (Except.error (GoError.laraTimeoutError "t")) =
      Except.error (wrapErr "failed to get memory: "
        (GoError.laraTimeoutError "t")) :=
  ⟨claim_C10_get_404_absence.1 "NotFound" "nope",
   claim_C10_get_404_absence.2.2.1 (GoError.laraTimeoutError "t") rfl⟩

/-! ## Header map lemmas -/

theorem headerGet_set_self (hs : List (String × String)) (k v k2 : String)
    (h : canonicalKey k2 = canonicalKey k) :
    headerGet (headerSet hs k v) k2 = v := by
  simp [headerSet, headerGet, List.find?, h]

theorem headerGet_set_other (hs : List (String × String)) (k v k2 : String)
    (h : canonicalKey k2 ≠ canonicalKey k) :
    headerGet (headerSet hs k v) k2 = headerGet hs k2 := by
  have hbeq : (canonicalKey k == canonicalKey k2) = false := by
    simp [BEq.beq]
    exact fun he => h he.symm
  simp only [headerSet, headerGet, List.find?, hbeq]
  congr 1
  induction hs with
  | nil => rfl
  | cons kv t ih =>
      by_cases hk : kv.1 = canonicalKey k
      · have h1 : (kv.1 != canonicalKey k) = false := by simp [hk]
        have h2 : (kv.1 == canonicalKey k2) = false := by
          simp [hk]
          exact fun he => h he.symm
        simp only [List.filter, h1, List.find?, h2, ih]
      · have h1 : (kv.1 != canonicalKey k) = true := by simp [hk]
        simp only [List.filter, h1, List.find?]
        cases hkv : kv.1 == canonicalKey k2 with
        | true => rfl
        | false => exact ih

theorem mem_headerSet {kv : String × String} (hs : List (String × String))
    (k v : String) (h : kv ∈ headerSet hs k v) :
    kv = (canonicalKey k, v) ∨ kv ∈ hs := by
  simp only [headerSet, List.mem_cons] at h
  rcases h with h | h
  · exact Or.inl h
  · exact Or.inr (List.mem_of_mem_filter h)

/-- Folding caller headers over a base does not touch a key none of them
canonicalise to. -/
theorem headerGet_foldl_not_mem (l : List (String × String))
    (hs : List (String × String)) (k2 : String)
    (h : ∀ kv ∈ l, canonicalKey kv.1 ≠ canonicalKey k2) :
    headerGet (l.foldl (fun acc kv => headerSet acc kv.1 kv.2) hs) k2 =
      headerGet hs k2 := by
  induction l generalizing hs with
  | nil => rfl
  | cons kv t ih =>
      rw [List.foldl_cons, ih _ (fun x hx => h x (by simp [hx]))]
      exact headerGet_set_other hs kv.1 kv.2 k2 (fun he => h kv (by simp) he.symm)

/-- A caller header among headers with pairwise distinct canonical keys
determines the final value of its key. -/
theorem headerGet_foldl_mem (l : List (String × String))
    (hs : List (String × String)) (k v : String)
    (hnd : (l.map (fun kv => canonicalKey kv.1)).Nodup) (hmem : (k, v) ∈ l) :
    headerGet (l.foldl (fun acc kv => headerSet acc kv.1 kv.2) hs) k = v := by
  induction l generalizing hs with
  | nil => cases hmem
  | cons kv t ih =>
      rw [List.map_cons, List.nodup_cons] at hnd
      rcases List.mem_cons.mp hmem with heq | hmem2
      · subst heq
        rw [List.foldl_cons]
        rw [headerGet_foldl_not_mem t _ k
          (fun x hx hc => hnd.1 (by
            simp only [List.mem_map]
            exact ⟨x, hx, hc⟩))]
        exact headerGet_set_self hs k v k rfl
      · exact ih _ hnd.2 hmem2

theorem mem_foldl_headerSet {kv : String × String}
    (l : List (String × String)) (hs : List (String × String))
    (h : kv ∈ l.foldl (fun acc kv2 => headerSet acc kv2.1 kv2.2) hs) :
    kv ∈ hs ∨ ∃ kv2 ∈ l, kv = (canonicalKey kv2.1, kv2.2) := by
  induction l generalizing hs with
  | nil => exact Or.inl h
  | cons kv2 t ih =>
      rw [List.foldl_cons] at h
      rcases ih _ h with h2 | h2
      · rcases mem_headerSet _ _ _ h2 with h3 | h3
        · exact Or.inr ⟨kv2, by simp, h3⟩
        · exact Or.inl h3
      · obtain ⟨kv3, hkv3, heq⟩ := h2
        exact Or.inr ⟨kv3, by simp [hkv3], heq⟩

/-- A key that none of the fixed headers and none of the caller headers
canonicalise to is absent (`Get` gives the empty string) from the
pre-authorization assembly. -/
theorem headerGet_preAuth_other (c : Client)
    (method dateStr contentType contentMD5 : String)
    (extra : List (String × String)) (k2 : String)
    (hex : ∀ kv ∈ extra, canonicalKey kv.1 ≠ canonicalKey k2)
    (h1 : canonicalKey k2 ≠ canonicalKey "X-HTTP-Method-Override")
    (h2 : canonicalKey k2 ≠ canonicalKey "Date")
    (h3 : canonicalKey k2 ≠ canonicalKey "X-Lara-SDK-Name")
    (h4 : canonicalKey k2 ≠ canonicalKey "X-Lara-SDK-Version")
    (h5 : canonicalKey k2 ≠ canonicalKey "Content-Type")
    (h6 : canonicalKey k2 ≠ canonicalKey "Content-MD5") :
    headerGet (preAuthHeaders c method dateStr contentType contentMD5 extra)
      k2 = "" := by
  unfold preAuthHeaders
  rw [headerGet_foldl_not_mem _ _ _
    (fun kv hkv hc => hex kv hkv hc)]
  split
  · rw [headerGet_set_other _ _ _ _ h6]
    split
    · rw [headerGet_set_other _ _ _ _ h5, headerGet_set_other _ _ _ _ h4,
        headerGet_set_other _ _ _ _ h3, headerGet_set_other _ _ _ _ h2,
        headerGet_set_other _ _ _ _ h1]
      rfl
    · rw [headerGet_set_other _ _ _ _ h4, headerGet_set_other _ _ _ _ h3,
        headerGet_set_other _ _ _ _ h2, headerGet_set_other _ _ _ _ h1]
      rfl
  · split
    · rw [headerGet_set_other _ _ _ _ h5, headerGet_set_other _ _ _ _ h4,
        headerGet_set_other _ _ _ _ h3, headerGet_set_other _ _ _ _ h2,
        headerGet_set_other _ _ _ _ h1]
      rfl
    · rw [headerGet_set_other _ _ _ _ h4, headerGet_set_other _ _ _ _ h3,
        headerGet_set_other _ _ _ _ h2, headerGet_set_other _ _ _ _ h1]
      rfl

/-- C8: The Authorization header is set to `Lara <accessKeyId>:<signature>`
on a request iff both the access key ID and the secret are non-empty —
signing is skipped entirely (anonymous request, no Authorization header
unless the caller supplies one) when either credential is empty;
caller-supplied extra headers are applied after the fixed headers
(X-HTTP-Method-Override, Date, SDK name/version, Content-Type,
Content-MD5) and may override them, except Authorization, which a
caller-supplied header can never override. -/
theorem claim_C8_authorization (c : Client)
    (method path dateStr contentType contentMD5 : String)
    (extra : List (String × String)) :
    (c.accessKeyID ≠ "" → c.accessKeySecret ≠ "" →
      headerGet (requestHeaders c method path dateStr contentType contentMD5
          extra) "Authorization" =
        "Lara " ++ c.accessKeyID ++ ":" ++
          c.sign method path contentMD5 contentType
            (headerGet (preAuthHeaders c method dateStr contentType contentMD5
              extra) "Date")) ∧
    ((c.accessKeyID = "" ∨ c.accessKeySecret = "") →
      (∀ kv ∈ extra, canonicalKey kv.1 ≠ "Authorization") →
      headerGet (requestHeaders c method path dateStr contentType contentMD5
        extra) "Authorization" = "") ∧
    (∀ k v, (extra.map (fun kv => canonicalKey kv.1)).Nodup → (k, v) ∈ extra →
      canonicalKey k ≠ "Authorization" →
      headerGet (requestHeaders c method path dateStr contentType contentMD5
        extra) k = v) := by
  refine ⟨?_, ?_, ?_⟩
  · intro hid hsec
    unfold requestHeaders
    rw [if_pos ⟨hid, hsec⟩]
    exact headerGet_set_self _ _ _ _ rfl
  · intro hcred hclean
    unfold requestHeaders
    rw [if_neg (by rcases hcred with h | h <;> simp [h])]
    refine headerGet_preAuth_other c method dateStr contentType contentMD5
      extra "Authorization" (fun kv hkv => ?_) (by decide) (by decide)
      (by decide) (by decide) (by decide) (by decide)
    rw [show canonicalKey "Authorization" = "Authorization" from rfl]
    exact hclean kv hkv
  · intro k v hnd hmem hka
    unfold requestHeaders
    split
    · rw [headerGet_set_other _ _ _ _
        (by rw [show canonicalKey "Authorization" = "Authorization" from rfl];
            exact hka)]
      unfold preAuthHeaders
      exact headerGet_foldl_mem extra _ k v hnd hmem
    · unfold preAuthHeaders
      exact headerGet_foldl_mem extra _ k v hnd hmem

/-- Witness for C8: with both credentials present, a caller-supplied
Authorization header is overridden by the computed signature while another
caller header does override its fixed value. -/
theorem claim_C8_authorization_witness :
    headerGet (requestHeaders (newClient "k" "s" "https://api.example.com")
        "get" "/p" "D" "" ""
        [("Authorization", "EVIL"), ("X-Lara-SDK-Name", "custom")])
      "Authorization" =
      "Lara " ++ "k" ++ ":" ++
        (newClient "k" "s" "https://api.example.com").sign "get" "/p" "" ""
          (headerGet (preAuthHeaders (newClient "k" "s" "https://api.example.com")
            "get" "D" "" ""
            [("Authorization", "EVIL"), ("X-Lara-SDK-Name", "custom")]) "Date") ∧
    headerGet (requestHeaders (newClient "k" "s" "https://api.example.com")
        "get" "/p" "D" "" ""
        [("Authorization", "EVIL"), ("X-Lara-SDK-Name", "custom")])
      "X-Lara-SDK-Name" = "custom" :=
  ⟨(claim_C8_authorization (newClient "k" "s" "https://api.example.com")
      "get" "/p" "D" "" ""
      [("Authorization", "EVIL"), ("X-Lara-SDK-Name", "custom")]).1
      (by decide) (by decide),
   (claim_C8_authorization (newClient "k" "s" "https://api.example.com")
      "get" "/p" "D" "" ""
      [("Authorization", "EVIL"), ("X-Lara-SDK-Name", "custom")]).2.2
      "X-Lara-SDK-Name" "custom" (by decide) (by simp) (by decide)⟩

theorem formDataContentType_ne_empty (b : String) : formDataContentType b ≠ "" := by
  unfold formDataContentType
  split <;> intro h <;> have h2 := congrArg String.length h <;>
    simp only [String.length_append] at h2
  · have e1 : ("multipart/form-data; boundary=\"" : String).length = 31 := rfl
    have e2 : ("\"" : String).length = 1 := rfl
    have e3 : ("" : String).length = 0 := rfl
    omega
  · have e1 : ("multipart/form-data; boundary=" : String).length = 30 := rfl
    have e3 : ("" : String).length = 0 := rfl
    omega

/-- With no body there is no Content-Type and no Content-MD5 header. -/
theorem headerGet_preAuth_noContent (c : Client) (method dateStr : String)
    (extra : List (String × String)) (k2 : String)
    (hex : ∀ kv ∈ extra, canonicalKey kv.1 ≠ canonicalKey k2)
    (h1 : canonicalKey k2 ≠ canonicalKey "X-HTTP-Method-Override")
    (h2 : canonicalKey k2 ≠ canonicalKey "Date")
    (h3 : canonicalKey k2 ≠ canonicalKey "X-Lara-SDK-Name")
    (h4 : canonicalKey k2 ≠ canonicalKey "X-Lara-SDK-Version") :
    headerGet (preAuthHeaders c method dateStr "" "" extra) k2 = "" := by
  unfold preAuthHeaders
  rw [headerGet_foldl_not_mem _ _ _ hex]
  rw [if_neg (by simp), if_neg (by simp)]
  rw [headerGet_set_other _ _ _ _ h4, headerGet_set_other _ _ _ _ h3,
    headerGet_set_other _ _ _ _ h2, headerGet_set_other _ _ _ _ h1]
  rfl

/-- With a non-empty content type and digest both content headers are set. -/
theorem headerGet_preAuth_contentType (c : Client)
    (method dateStr ct md5 : String) (extra : List (String × String))
    (hct : ct ≠ "") (hmd5 : md5 ≠ "")
    (hex : ∀ kv ∈ extra, canonicalKey kv.1 ≠ canonicalKey "Content-Type") :
    headerGet (preAuthHeaders c method dateStr ct md5 extra) "Content-Type" =
      ct := by
  unfold preAuthHeaders
  rw [headerGet_foldl_not_mem _ _ _ hex]
  rw [if_pos hmd5]
  rw [headerGet_set_other _ _ _ _ (by decide)]
  rw [if_pos hct]
  exact headerGet_set_self _ _ _ _ rfl

theorem headerGet_preAuth_contentMD5 (c : Client)
    (method dateStr ct md5 : String) (extra : List (String × String))
    (hmd5 : md5 ≠ "")
    (hex : ∀ kv ∈ extra, canonicalKey kv.1 ≠ canonicalKey "Content-MD5") :
    headerGet (preAuthHeaders c method dateStr ct md5 extra) "Content-MD5" =
      md5 := by
  unfold preAuthHeaders
  rw [headerGet_foldl_not_mem _ _ _ hex]
  rw [if_pos hmd5]
  exact headerGet_set_self _ _ _ _ rfl

/-- C6: when file attachments are present the body is multipart (one form
part per attachment field key, plus the `"json"` form field holding the
serialized JSON body when one is also supplied), the Content-Type header
is the multipart boundary header and Content-MD5 is the MD5 hex digest of
the full multipart byte buffer — regardless of whether a JSON body is
present; when only a JSON body is supplied, Content-Type is
application/json and Content-MD5 is the MD5 hex digest of the serialized
JSON bytes; when neither is supplied, no body is sent, no Content-Type
header is set, and Content-MD5 is empty (header absent). -/
theorem claim_C6_body_selection (c : Client)
    (boundary method path dateStr : String) (body : Option Json)
    (files : List (String × String)) (headers : List (String × String)) :
    (files ≠ [] →
      buildBody boundary files body =
        ⟨some (multipartBody boundary files (body.map renderJsonStr)),
         formDataContentType boundary,
         md5Hex (strBytes (multipartBody boundary files
           (body.map renderJsonStr)))⟩) ∧
    (∀ j, buildBody boundary [] (some j) =
      ⟨some (renderJsonStr j), "application/json",
       md5Hex (strBytes (renderJsonStr j))⟩) ∧
    buildBody boundary [] none = ⟨none, "", ""⟩ ∧
    (∀ bs, (md5Hex bs).length = 32 ∧ md5Hex bs ≠ "") ∧
    ((∀ kv ∈ headers, canonicalKey kv.1 ≠ "Content-Type" ∧
        canonicalKey kv.1 ≠ canonicalKey "Content-MD5") →
      (files = [] → body = none →
        headerGet (clientBuildRequest c boundary method path dateStr body files
          headers).2 "Content-Type" = "" ∧
        headerGet (clientBuildRequest c boundary method path dateStr body files
          headers).2 "Content-MD5" = "") ∧
      (files ≠ [] →
        headerGet (clientBuildRequest c boundary method path dateStr body files
          headers).2 "Content-Type" = formDataContentType boundary ∧
        headerGet (clientBuildRequest c boundary method path dateStr body files
          headers).2 "Content-MD5" =
          md5Hex (strBytes (multipartBody boundary files
            (body.map renderJsonStr))))) := by
  have hbb : files ≠ [] →
      buildBody boundary files body =
        ⟨some (multipartBody boundary files (body.map renderJsonStr)),
         formDataContentType boundary,
         md5Hex (strBytes (multipartBody boundary files
           (body.map renderJsonStr)))⟩ := by
    intro hne
    unfold buildBody
    rw [if_pos (by
      cases files with
      | nil => exact absurd rfl hne
      | cons a t => simp)]
  refine ⟨hbb, fun j => rfl, rfl,
    fun bs => ⟨md5Hex_length bs, md5Hex_ne_empty bs⟩, ?_⟩
  intro hclean
  constructor
  · intro hfe hbe
    subst hfe
    subst hbe
    unfold clientBuildRequest
    rw [show buildBody boundary [] none = ⟨none, "", ""⟩ from rfl]
    unfold requestHeaders
    constructor
    · split
      · rw [headerGet_set_other _ _ _ _ (by decide)]
        exact headerGet_preAuth_noContent c method dateStr headers
          "Content-Type" (fun kv hkv => (hclean kv hkv).1) (by decide)
          (by decide) (by decide) (by decide)
      · exact headerGet_preAuth_noContent c method dateStr headers
          "Content-Type" (fun kv hkv => (hclean kv hkv).1) (by decide)
          (by decide) (by decide) (by decide)
    · split
      · rw [headerGet_set_other _ _ _ _ (by decide)]
        exact headerGet_preAuth_noContent c method dateStr headers
          "Content-MD5" (fun kv hkv => (hclean kv hkv).2) (by decide)
          (by decide) (by decide) (by decide)
      · exact headerGet_preAuth_noContent c method dateStr headers
          "Content-MD5" (fun kv hkv => (hclean kv hkv).2) (by decide)
          (by decide) (by decide) (by decide)
  · intro hne
    unfold clientBuildRequest
    rw [hbb hne]
    unfold requestHeaders
    constructor
    · split
      · rw [headerGet_set_other _ _ _ _ (by decide)]
        exact headerGet_preAuth_contentType c method dateStr _ _ headers
          (formDataContentType_ne_empty boundary) (md5Hex_ne_empty _)
          (fun kv hkv => (hclean kv hkv).1)
      · exact headerGet_preAuth_contentType c method dateStr _ _ headers
          (formDataContentType_ne_empty boundary) (md5Hex_ne_empty _)
          (fun kv hkv => (hclean kv hkv).1)
    · split
      · rw [headerGet_set_other _ _ _ _ (by decide)]
        exact headerGet_preAuth_contentMD5 c method dateStr _ _ headers
          (md5Hex_ne_empty _) (fun kv hkv => (hclean kv hkv).2)
      · exact headerGet_preAuth_contentMD5 c method dateStr _ _ headers
          (md5Hex_ne_empty _) (fun kv hkv => (hclean kv hkv).2)

/-- Witness for C6: a request with one attachment and a JSON body is
multipart with the boundary content type; a bodyless request sets
neither content header. -/
theorem claim_C6_body_selection_witness :
    buildBody "bnd" [("tmx", "DATA")] (some (Json.obj [("name", Json.str "x")])) =
      ⟨some (multipartBody "bnd" [("tmx", "DATA")]
         (some (renderJsonStr (Json.obj [("name", Json.str "x")])))),
       formDataContentType "bnd",
       md5Hex (strBytes (multipartBody "bnd" [("tmx", "DATA")]
         (some (renderJsonStr (Json.obj [("name", Json.str "x")])))))⟩ ∧
    headerGet (clientBuildRequest (newClient "" "" "u") "bnd" "GET" "/x" "D"
        none [] []).2 "Content-Type" = "" :=
  ⟨(claim_C6_body_selection (newClient "" "" "u") "bnd" "GET" "/x" "D"
      (some (Json.obj [("name", Json.str "x")])) [("tmx", "DATA")] []).1
      (by simp),
   (((claim_C6_body_selection (newClient "" "" "u") "bnd" "GET" "/x" "D"
      none [] []).2.2.2.2 (by simp)).1 rfl rfl).1⟩

/-! ## Poll loop lemmas -/

def fetchOkSnaps (events : List PollEvent) : List Import :=
  events.filterMap (fun e => match e with
    | PollEvent.fetchOk _ s => some s
    | _ => none)

def callbackSnaps (events : List PollEvent) : List Import :=
  events.filterMap (fun e => match e with
    | PollEvent.callback s => some s
    | _ => none)

def sleepCount (events : List PollEvent) : Nat :=
  (events.filter (fun e => match e with
    | PollEvent.sleep _ => true
    | _ => false)).length

def fetchErrCount (events : List PollEvent) : Nat :=
  (events.filter (fun e => match e with
    | PollEvent.fetchErr _ _ => true
    | _ => false)).length

/-- One-step unfolding of the loop (it is structural in the fuel). -/
theorem importWaitLoop_succ (msg : String) (onErr : GoError → GoError)
    (pi : Nat) (fetch : Nat → String → Except GoError Import)
    (mw : Option Nat) (cb : Bool) (fuel : Nat) (current : Import)
    (elapsed calls : Nat) (events : List PollEvent) :
    importWaitLoop msg onErr pi fetch mw cb (fuel + 1) current elapsed calls
        events =
      if current.progress < 1 then
        if (match mw with
            | some m => decide (m < elapsed)
            | none => false) then
          some ⟨current, some (GoError.errorf msg none), events⟩
        else
          match fetch calls current.id with
          | Except.error e => some ⟨current, some (onErr e),
              (events ++ [PollEvent.sleep pi]) ++
                [PollEvent.fetchErr current.id e]⟩
          | Except.ok updated =>
              importWaitLoop msg onErr pi fetch mw cb fuel updated
                (elapsed + pi) (calls + 1)
                (((events ++ [PollEvent.sleep pi]) ++
                  [PollEvent.fetchOk current.id updated]) ++
                  (if cb then [PollEvent.callback updated] else []))
      else some ⟨current, none, events⟩ := rfl

/-- An already-complete snapshot returns immediately: no sleep, no fetch,
no callback. -/
theorem importWaitLoop_complete (msg : String) (onErr : GoError → GoError)
    (pi : Nat) (fetch : Nat → String → Except GoError Import)
    (mw : Option Nat) (cb : Bool) (fuel : Nat) (imp : Import)
    (h : ¬ imp.progress < 1) :
    importWaitLoop msg onErr pi fetch mw cb (fuel + 1) imp 0 0 [] =
      some ⟨imp, none, []⟩ := by
  rw [importWaitLoop_succ, if_neg h]

/-- With the callback present, the callback invocations are exactly the
successfully fetched snapshots, in order. -/
theorem importWaitLoop_callbacks (msg : String) (onErr : GoError → GoError)
    (pi : Nat) (fetch : Nat → String → Except GoError Import)
    (mw : Option Nat) :
    ∀ fuel imp elapsed calls events out,
      importWaitLoop msg onErr pi fetch mw true fuel imp elapsed calls
        events = some out →
      callbackSnaps events = fetchOkSnaps events →
      callbackSnaps out.events = fetchOkSnaps out.events := by
  intro fuel
  induction fuel with
  | zero => intro imp elapsed calls events out h; cases h
  | succ f ih =>
      intro imp elapsed calls events out h hinv
      rw [importWaitLoop_succ] at h
      split at h
      · split at h
        · cases h
          exact hinv
        · split at h
          · cases h
            simpa [callbackSnaps, fetchOkSnaps, List.filterMap_append]
              using hinv
          · refine ih _ _ _ _ _ h ?_
            simpa [callbackSnaps, fetchOkSnaps, List.filterMap_append]
              using hinv
      · cases h
        exact hinv

/-- When the fetch oracle always succeeds but never reaches completion and
a maximum wait is given, the loop (with enough fuel) ends in the plain
timeout error, having checked the clock before each sleep (one sleep per
completed fetch) and holding the last fetched snapshot. -/
theorem importWaitLoop_timeout (msg : String) (onErr : GoError → GoError)
    (pi : Nat) (g : Nat → String → Import) (mw : Nat) (cb : Bool)
    (hpi : 0 < pi) (hg : ∀ i s, (g i s).progress < 1) :
    ∀ fuel imp elapsed calls events,
      imp.progress < 1 →
      elapsed ≤ mw + pi →
      mw + 2 * pi ≤ elapsed + pi * fuel →
      ∃ out evs,
        importWaitLoop msg onErr pi (fun i s => Except.ok (g i s)) (some mw)
          cb fuel imp elapsed calls events = some out ∧
        out.err = some (GoError.errorf msg none) ∧
        out.events = events ++ evs ∧
        sleepCount evs = (fetchOkSnaps evs).length ∧
        out.result = (fetchOkSnaps evs).getLastD imp ∧
        (fetchOkSnaps evs = [] → mw < elapsed) := by
  intro fuel
  induction fuel with
  | zero =>
      intro imp elapsed calls events h1 h2 h3
      exfalso
      rw [Nat.mul_zero] at h3
      omega
  | succ f ih =>
      intro imp elapsed calls events h1 h2 h3
      rw [Nat.mul_succ] at h3
      by_cases hto : mw < elapsed
      · refine ⟨⟨imp, some (GoError.errorf msg none), events⟩, [], ?_, rfl,
          by simp, rfl, rfl, fun _ => hto⟩
        rw [importWaitLoop_succ, if_pos h1]
        simp [hto]
      · obtain ⟨out, evs, hloop, herr, hevs, hsleep, hres, hne⟩ :=
          ih (g calls imp.id) (elapsed + pi) (calls + 1)
            (((events ++ [PollEvent.sleep pi]) ++
              [PollEvent.fetchOk imp.id (g calls imp.id)]) ++
              (if cb then [PollEvent.callback (g calls imp.id)] else []))
            (hg calls imp.id) (by omega) (by omega)
        refine ⟨out, ([PollEvent.sleep pi,
          PollEvent.fetchOk imp.id (g calls imp.id)] ++
          (if cb then [PollEvent.callback (g calls imp.id)] else [])) ++ evs,
          ?_, herr, ?_, ?_, ?_, ?_⟩
        · rw [importWaitLoop_succ, if_pos h1]
          simp only [decide_eq_true_eq]
          rw [if_neg hto]
          exact hloop
        · rw [hevs]
          simp
        · cases cb <;>
            simp [sleepCount, fetchOkSnaps, List.filter_append,
              List.filterMap_append] at hsleep ⊢ <;> omega
        · rw [hres]
          have hsnap : fetchOkSnaps (([PollEvent.sleep pi,
              PollEvent.fetchOk imp.id (g calls imp.id)] ++
              (if cb then [PollEvent.callback (g calls imp.id)] else [])) ++
              evs) = g calls imp.id :: fetchOkSnaps evs := by
            cases cb <;> simp [fetchOkSnaps, List.filterMap_append]
          rw [hsnap, List.getLastD_cons]
        · intro hemp
          exfalso
          cases cb <;> simp [fetchOkSnaps, List.filterMap_append] at hemp

/-- When the fetch oracle succeeds (incomplete) for the first `j` calls
and fails on call `j`, the loop stops at that first failure: the fetch
error is reported through `onFetchErr`, there is exactly one failed fetch,
exactly `j` successful ones, and the result is the last good snapshot. -/
theorem importWaitLoop_fetchErr (msg : String) (onErr : GoError → GoError)
    (pi : Nat) (g : Nat → String → Except GoError Import) (e : GoError)
    (cb : Bool) :
    ∀ j fuel imp elapsed calls events,
      imp.progress < 1 →
      (∀ i, i < j → ∀ s, ∃ u, g (calls + i) s = Except.ok u ∧ u.progress < 1) →
      (∀ s, g (calls + j) s = Except.error e) →
      j + 1 ≤ fuel →
      ∃ out evs,
        importWaitLoop msg onErr pi g none cb fuel imp elapsed calls events =
          some out ∧
        out.err = some (onErr e) ∧
        out.events = events ++ evs ∧
        fetchErrCount evs = 1 ∧
        (fetchOkSnaps evs).length = j ∧
        out.result = (fetchOkSnaps evs).getLastD imp := by
  intro j
  induction j with
  | zero =>
      intro fuel imp elapsed calls events h1 _ herr hfuel
      match fuel, hfuel with
      | f + 1, _ =>
        refine ⟨⟨imp, some (onErr e), (events ++ [PollEvent.sleep pi]) ++
          [PollEvent.fetchErr imp.id e]⟩,
          [PollEvent.sleep pi, PollEvent.fetchErr imp.id e], ?_, rfl, by simp,
          rfl, rfl, rfl⟩
        rw [importWaitLoop_succ, if_pos h1]
        have he := herr imp.id
        rw [Nat.add_zero] at he
        simp [he]
  | succ j ih =>
      intro fuel imp elapsed calls events h1 hok herr hfuel
      match fuel, hfuel with
      | f + 1, hfuel =>
        obtain ⟨u, hu, hup⟩ := hok 0 (by omega) imp.id
        rw [Nat.add_zero] at hu
        obtain ⟨out, evs, hloop, herr2, hevs, hcnt, hlen, hres⟩ :=
          ih f u (elapsed + pi) (calls + 1)
            (((events ++ [PollEvent.sleep pi]) ++
              [PollEvent.fetchOk imp.id u]) ++
              (if cb then [PollEvent.callback u] else []))
            hup
            (fun i hi s => by
              have hh := hok (i + 1) (by omega) s
              rwa [show calls + (i + 1) = calls + 1 + i by omega] at hh)
            (fun s => by
              have hh := herr s
              rwa [show calls + (j + 1) = calls + 1 + j by omega] at hh)
            (by omega)
        refine ⟨out, ([PollEvent.sleep pi, PollEvent.fetchOk imp.id u] ++
          (if cb then [PollEvent.callback u] else [])) ++ evs, ?_, herr2,
          ?_, ?_, ?_, ?_⟩
        · rw [importWaitLoop_succ, if_pos h1]
          simp only [hu]
          exact hloop
        · rw [hevs]
          simp
        · cases cb <;>
            simp [fetchErrCount, List.filter_append] at hcnt ⊢ <;> omega
        · cases cb <;>
            simp [fetchOkSnaps, List.filterMap_append] at hlen ⊢ <;> omega
        · rw [hres]
          have hsnap : fetchOkSnaps (([PollEvent.sleep pi,
              PollEvent.fetchOk imp.id u] ++
              (if cb then [PollEvent.callback u] else [])) ++ evs) =
              u :: fetchOkSnaps evs := by
            cases cb <;> simp [fetchOkSnaps, List.filterMap_append]
          rw [hsnap, List.getLastD_cons]

/-! ## Claims C3, C4, C5: the import pollers -/

/-- C3, counterexample: with a maximum wait of 3 and fetches that never
reach completion, `MemoriesService.WaitForImport` does stop and does
return the last fetched snapshot, but the reported failure is the plain
`fmt.Errorf` timeout message — not a value of the typed Timeout kind
(`LaraTimeoutError`): `isTimeoutKind` is false on it. -/
theorem claim_C3_counterexample :
    ∃ out,
      memoriesWaitForImport
        (fun _ _ => Except.ok ⟨"m1", 0, 0, 0, 0, mkRat 1 2⟩) (some 3) false 5
        ⟨"m1", 0, 0, 0, 0, 0⟩ = some out ∧
      out.err = some (GoError.errorf
        "timeout waiting for import to complete" none) ∧
      out.result = ⟨"m1", 0, 0, 0, 0, mkRat 1 2⟩ ∧
      ∀ e, out.err = some e → e.isTimeoutKind = false := by
  refine ⟨⟨⟨"m1", 0, 0, 0, 0, mkRat 1 2⟩,
    some (GoError.errorf "timeout waiting for import to complete" none),
    [PollEvent.sleep 2,
     PollEvent.fetchOk "m1" ⟨"m1", 0, 0, 0, 0, mkRat 1 2⟩,
     PollEvent.sleep 2,
     PollEvent.fetchOk "m1" ⟨"m1", 0, 0, 0, 0, mkRat 1 2⟩]⟩,
    rfl, rfl, rfl, ?_⟩
  intro e he
  cases Option.some.inj he
  rfl

/-- C3 (amended): for both wait-for-import loops, when a maximum wait `mw`
is given and the fetched snapshots never reach completion, the poller
stops and reports the loop's `fmt.Errorf` timeout failure — a plain
wrapped message, not the typed Timeout kind — alongside the last fetched
incomplete snapshot; at least one fetch occurs (the clock starts at zero,
so the first check cannot time out), the elapsed-time check precedes each
sleep, and the events show exactly one sleep per completed fetch with no
trailing sleep in the iteration that times out. -/
theorem claim_C3_timeout (g : Nat → String → Import) (mw : Nat) (cb : Bool)
    (imp : Import) (fuelM fuelG : Nat)
    (hg : ∀ i s, (g i s).progress < 1) (h1 : imp.progress < 1)
    (hfm : mw + 4 ≤ 2 * fuelM) (hfg : mw + 4 ≤ 2 * fuelG) :
    (∃ out evs,
      memoriesWaitForImport (fun i s => Except.ok (g i s)) (some mw) cb
        fuelM imp = some out ∧
      out.err = some (GoError.errorf
        "timeout waiting for import to complete" none) ∧
      (∀ e, out.err = some e → e.isTimeoutKind = false) ∧
      out.events = evs ∧
      sleepCount evs = (fetchOkSnaps evs).length ∧
      fetchOkSnaps evs ≠ [] ∧
      out.result = (fetchOkSnaps evs).getLastD imp) ∧
    (∃ out evs,
      glossariesWaitForImport glossariesServicePollingInterval
        (fun i s => Except.ok (g i s)) (some mw) cb fuelG imp = some out ∧
      out.err = some (GoError.errorf
        "timeout waiting for glossary import to complete" none) ∧
      (∀ e, out.err = some e → e.isTimeoutKind = false) ∧
      out.events = evs ∧
      sleepCount evs = (fetchOkSnaps evs).length ∧
      fetchOkSnaps evs ≠ [] ∧
      out.result = (fetchOkSnaps evs).getLastD imp) := by
  constructor
  · obtain ⟨out, evs, hloop, herr, hevs, hsleep, hres, hne⟩ :=
      importWaitLoop_timeout "timeout waiting for import to complete"
        (fun e => e) 2 g mw cb (by omega) hg fuelM imp 0 0 [] h1 (by omega)
        (by omega)
    refine ⟨out, evs, hloop, herr, ?_, by simpa using hevs, hsleep,
      fun hemp => absurd (hne hemp) (by omega), hres⟩
    intro e he
    rw [herr] at he
    cases Option.some.inj he
    rfl
  · obtain ⟨out, evs, hloop, herr, hevs, hsleep, hres, hne⟩ :=
      importWaitLoop_timeout
        "timeout waiting for glossary import to complete"
        (wrapErr "failed to get import status: ") 2 g mw cb (by omega) hg
        fuelG imp 0 0 [] h1 (by omega) (by omega)
    refine ⟨out, evs, hloop, herr, ?_, by simpa using hevs, hsleep,
      fun hemp => absurd (hne hemp) (by omega), hres⟩
    intro e he
    rw [herr] at he
    cases Option.some.inj he
    rfl

/-- A closed instance of the amended C3 theorem: constant fetches at
progress 1/2, maximum wait 3, fuel 5 on both loops. -/
theorem claim_C3_timeout_witness :
    (∃ out evs,
      memoriesWaitForImport
        (fun i s => Except.ok ((fun (_ : Nat) (_ : String) =>
          (⟨"m1", 0, 0, 0, 0, mkRat 1 2⟩ : Import)) i s)) (some 3) false 5
        ⟨"m1", 0, 0, 0, 0, 0⟩ = some out ∧
      out.err = some (GoError.errorf
        "timeout waiting for import to complete" none) ∧
      (∀ e, out.err = some e → e.isTimeoutKind = false) ∧
      out.events = evs ∧
      sleepCount evs = (fetchOkSnaps evs).length ∧
      fetchOkSnaps evs ≠ [] ∧
      out.result = (fetchOkSnaps evs).getLastD ⟨"m1", 0, 0, 0, 0, 0⟩) ∧
    (∃ out evs,
      glossariesWaitForImport glossariesServicePollingInterval
        (fun i s => Except.ok ((fun (_ : Nat) (_ : String) =>
          (⟨"m1", 0, 0, 0, 0, mkRat 1 2⟩ : Import)) i s)) (some 3) false 5
        ⟨"m1", 0, 0, 0, 0, 0⟩ = some out ∧
      out.err = some (GoError.errorf
        "timeout waiting for glossary import to complete" none) ∧
      (∀ e, out.err = some e → e.isTimeoutKind = false) ∧
      out.events = evs ∧
      sleepCount evs = (fetchOkSnaps evs).length ∧
      fetchOkSnaps evs ≠ [] ∧
      out.result = (fetchOkSnaps evs).getLastD ⟨"m1", 0, 0, 0, 0, 0⟩) :=
  claim_C3_timeout (fun _ _ => ⟨"m1", 0, 0, 0, 0, mkRat 1 2⟩) 3 false
    ⟨"m1", 0, 0, 0, 0, 0⟩ 5 5
    (fun _ _ => (by decide : (mkRat 1 2 : Rat) < 1)) (by decide) (by omega)
    (by omega)

/-- C4, counterexample: the glossary wait loop does not report the fetch
failure unchanged — it rewraps it as `failed to get import status: %w`.
With a fetch failing with a 500 `LaraError`, the reported error is the
wrapping `errorf` (the original kept only as its unwrap cause), not the
original error value. -/
theorem claim_C4_counterexample :
    ∃ out,
      glossariesWaitForImport glossariesServicePollingInterval
        (fun _ _ => Except.error (GoError.laraError 500 "Internal" "boom"))
        none false 3 ⟨"g1", 0, 0, 0, 0, 0⟩ = some out ∧
      out.err = some (GoError.errorf
        "failed to get import status: Internal: boom"
        (some (GoError.laraError 500 "Internal" "boom"))) ∧
      out.err ≠ some (GoError.laraError 500 "Internal" "boom") := by
  refine ⟨⟨⟨"g1", 0, 0, 0, 0, 0⟩,
    some (GoError.errorf "failed to get import status: Internal: boom"
      (some (GoError.laraError 500 "Internal" "boom"))),
    [PollEvent.sleep 2, PollEvent.fetchErr "g1"
      (GoError.laraError 500 "Internal" "boom")]⟩, rfl, rfl, by simp⟩

/-- C4 (amended): both loops stop at the first fetch failure (exactly one
failed fetch, the successful ones untouched — no retry of the failing
fetch) and return the last known-good snapshot alongside the failure; the
memories loop reports the fetch failure unchanged, while the glossaries
loop rewraps it as `failed to get import status: %w` before returning. -/
theorem claim_C4_fetch_failure (g : Nat → String → Except GoError Import)
    (e : GoError) (cb : Bool) (imp : Import) (j fuel : Nat)
    (h1 : imp.progress < 1)
    (hok : ∀ i, i < j → ∀ s, ∃ u, g i s = Except.ok u ∧ u.progress < 1)
    (herr : ∀ s, g j s = Except.error e) (hfuel : j + 1 ≤ fuel) :
    (∃ out evs,
      memoriesWaitForImport g none cb fuel imp = some out ∧
      out.err = some e ∧
      out.events = evs ∧
      fetchErrCount evs = 1 ∧
      (fetchOkSnaps evs).length = j ∧
      out.result = (fetchOkSnaps evs).getLastD imp) ∧
    (∃ out evs,
      glossariesWaitForImport glossariesServicePollingInterval g none cb
        fuel imp = some out ∧
      out.err = some (wrapErr "failed to get import status: " e) ∧
      out.events = evs ∧
      fetchErrCount evs = 1 ∧
      (fetchOkSnaps evs).length = j ∧
      out.result = (fetchOkSnaps evs).getLastD imp) := by
  constructor
  · obtain ⟨out, evs, hloop, herr2, hevs, hcnt, hlen, hres⟩ :=
      importWaitLoop_fetchErr "timeout waiting for import to complete"
        (fun e => e) 2 g e cb j fuel imp 0 0 [] h1
        (fun i hi s => by simpa using hok i hi s)
        (fun s => by simpa using herr s) hfuel
    exact ⟨out, evs, hloop, herr2, by simpa using hevs, hcnt, hlen, hres⟩
  · obtain ⟨out, evs, hloop, herr2, hevs, hcnt, hlen, hres⟩ :=
      importWaitLoop_fetchErr
        "timeout waiting for glossary import to complete"
        (wrapErr "failed to get import status: ") 2 g e cb j fuel imp 0 0 []
        h1 (fun i hi s => by simpa using hok i hi s)
        (fun s => by simpa using herr s) hfuel
    exact ⟨out, evs, hloop, herr2, by simpa using hevs, hcnt, hlen, hres⟩

/-- A closed instance of the amended C4 theorem: one good fetch at
progress 1/2, then a 500 failure, fuel 3 on both loops. -/
theorem claim_C4_fetch_failure_witness :
    (∃ out evs,
      memoriesWaitForImport
        (fun i _ => if i = 0 then
            Except.ok (⟨"g1", 0, 0, 0, 0, mkRat 1 2⟩ : Import)
          else Except.error (GoError.laraError 500 "Internal" "boom"))
        none false 3 ⟨"g1", 0, 0, 0, 0, 0⟩ = some out ∧
      out.err = some (GoError.laraError 500 "Internal" "boom") ∧
      out.events = evs ∧
      fetchErrCount evs = 1 ∧
      (fetchOkSnaps evs).length = 1 ∧
      out.result = (fetchOkSnaps evs).getLastD ⟨"g1", 0, 0, 0, 0, 0⟩) ∧
    (∃ out evs,
      glossariesWaitForImport glossariesServicePollingInterval
        (fun i _ => if i = 0 then
            Except.ok (⟨"g1", 0, 0, 0, 0, mkRat 1 2⟩ : Import)
          else Except.error (GoError.laraError 500 "Internal" "boom"))
        none false 3 ⟨"g1", 0, 0, 0, 0, 0⟩ = some out ∧
      out.err = some (wrapErr "failed to get import status: "
        (GoError.laraError 500 "Internal" "boom")) ∧
      out.events = evs ∧
      fetchErrCount evs = 1 ∧
      (fetchOkSnaps evs).length = 1 ∧
      out.result = (fetchOkSnaps evs).getLastD ⟨"g1", 0, 0, 0, 0, 0⟩) :=
  claim_C4_fetch_failure
    (fun i _ => if i = 0 then
        Except.ok (⟨"g1", 0, 0, 0, 0, mkRat 1 2⟩ : Import)
      else Except.error (GoError.laraError 500 "Internal" "boom"))
    (GoError.laraError 500 "Internal" "boom") false ⟨"g1", 0, 0, 0, 0, 0⟩
    1 3 (by decide)
    (fun i hi s => by
      rcases i with _ | n
      · exact ⟨⟨"g1", 0, 0, 0, 0, mkRat 1 2⟩, rfl, by decide⟩
      · exact absurd hi (by omega))
    (fun s => rfl) (by omega)

/-- C5: an initial snapshot already at progress ≥ 1 is returned at once
with an empty event trace (no sleep, no fetch, no callback) by both
loops; with the callback present, the callback invocations of any
terminating run are exactly the successfully fetched snapshots in order
(once per fetch, never the initial snapshot); and with fetches returning
progress 3/10, 7/10, 1, the memories poller returns the progress-1
snapshot after exactly three fetches and three callback invocations. -/
theorem claim_C5_poller :
    (∀ (fetch : Nat → String → Except GoError Import) (mw : Option Nat)
        (cb : Bool) (fuel : Nat) (imp : Import), ¬ imp.progress < 1 →
      memoriesWaitForImport fetch mw cb (fuel + 1) imp =
        some ⟨imp, none, []⟩ ∧
      glossariesWaitForImport glossariesServicePollingInterval fetch mw cb
        (fuel + 1) imp = some ⟨imp, none, []⟩) ∧
    (∀ fetch mw fuel imp out,
      memoriesWaitForImport fetch mw true fuel imp = some out →
      callbackSnaps out.events = fetchOkSnaps out.events) ∧
    (∀ fetch mw fuel imp out,
      glossariesWaitForImport glossariesServicePollingInterval fetch mw
        true fuel imp = some out →
      callbackSnaps out.events = fetchOkSnaps out.events) ∧
    (∃ out,
      memoriesWaitForImport
        (fun i _ => Except.ok (⟨"m1", 0, 0, 0, 0,
          if i = 0 then mkRat 3 10 else if i = 1 then mkRat 7 10 else 1⟩ :
            Import))
        none true 5 ⟨"m1", 0, 0, 0, 0, 0⟩ = some out ∧
      out.result.progress = 1 ∧ out.err = none ∧
      (callbackSnaps out.events).length = 3 ∧
      (fetchOkSnaps out.events).length = 3 ∧
      callbackSnaps out.events = fetchOkSnaps out.events) := by
  refine ⟨?_, ?_, ?_, ?_⟩
  · intro fetch mw cb fuel imp h
    exact ⟨importWaitLoop_complete _ _ _ _ _ _ _ _ h,
      importWaitLoop_complete _ _ _ _ _ _ _ _ h⟩
  · intro fetch mw fuel imp out h
    exact importWaitLoop_callbacks _ _ _ _ _ fuel imp 0 0 [] out h rfl
  · intro fetch mw fuel imp out h
    exact importWaitLoop_callbacks _ _ _ _ _ fuel imp 0 0 [] out h rfl
  · refine ⟨⟨⟨"m1", 0, 0, 0, 0, 1⟩, none,
      [PollEvent.sleep 2,
       PollEvent.fetchOk "m1" ⟨"m1", 0, 0, 0, 0, mkRat 3 10⟩,
       PollEvent.callback ⟨"m1", 0, 0, 0, 0, mkRat 3 10⟩,
       PollEvent.sleep 2,
       PollEvent.fetchOk "m1" ⟨"m1", 0, 0, 0, 0, mkRat 7 10⟩,
       PollEvent.callback ⟨"m1", 0, 0, 0, 0, mkRat 7 10⟩,
       PollEvent.sleep 2,
       PollEvent.fetchOk "m1" ⟨"m1", 0, 0, 0, 0, 1⟩,
       PollEvent.callback ⟨"m1", 0, 0, 0, 0, 1⟩]⟩,
      rfl, rfl, rfl, rfl, rfl, rfl⟩

/-- A closed instance of C5: a complete initial snapshot is returned
unchanged with no events. -/
theorem claim_C5_poller_witness :
    memoriesWaitForImport
      (fun _ _ => Except.error (GoError.errorf "unused" none)) none false 1
      ⟨"m1", 0, 0, 0, 0, 1⟩ = some ⟨⟨"m1", 0, 0, 0, 0, 1⟩, none, []⟩ :=
  (claim_C5_poller.1 (fun _ _ => Except.error (GoError.errorf "unused" none))
    none false 0 ⟨"m1", 0, 0, 0, 0, 1⟩ (by decide)).1

/-! ## Claim C9: the document-translation wait loop -/

/-- One-step unfolding of the document wait loop (structural in the
fuel). -/
theorem waitForTranslation_succ
    (fetch : Nat → String → Except GoError Document) (fuel : Nat)
    (current : Document) (elapsed calls : Nat)
    (events : List DocPollEvent) :
    waitForTranslation fetch (fuel + 1) current elapsed calls events =
      if current.status ≠ DocumentStatusTranslated ∧
          current.status ≠ DocumentStatusError then
        if 0 < docMaxWaitTime ∧ docMaxWaitTime < elapsed then
          some ⟨current, some (GoError.errorf
            "timeout waiting for translation to complete" none), events⟩
        else
          match fetch calls current.id with
          | Except.error e => some ⟨current, some e,
              (events ++ [DocPollEvent.sleep 2]) ++
                [DocPollEvent.fetchErr current.id e]⟩
          | Except.ok updated =>
              waitForTranslation fetch fuel updated (elapsed + 2)
                (calls + 1)
                ((events ++ [DocPollEvent.sleep 2]) ++
                  [DocPollEvent.fetchOk current.id updated])
      else some ⟨current, none, events⟩ := rfl

/-- C9: a run of the document wait loop that ends without error ends with
a terminal status (`translated` or `error`); a terminal snapshot returns
immediately and a non-terminal one sleeps the fixed 2-second interval and
refreshes by fetching the current document's identifier; and the
post-wait check of `TranslateWithOptions` turns an `error` status into a
failure carrying the recorded error reason (default `"translation
failed"`) instead of success, and passes any other status through. -/
theorem claim_C9_document_wait :
    (∀ fetch fuel d elapsed calls events out,
      waitForTranslation fetch fuel d elapsed calls events = some out →
      out.err = none →
      out.result.status = DocumentStatusTranslated ∨
        out.result.status = DocumentStatusError) ∧
    (∀ fetch fuel d elapsed calls events,
      d.status = DocumentStatusTranslated ∨
        d.status = DocumentStatusError →
      waitForTranslation fetch (fuel + 1) d elapsed calls events =
        some ⟨d, none, events⟩) ∧
    (∀ fetch fuel d elapsed calls events,
      d.status ≠ DocumentStatusTranslated →
      d.status ≠ DocumentStatusError →
      waitForTranslation fetch (fuel + 1) d elapsed calls events =
        match fetch calls d.id with
        | Except.error e => some ⟨d, some e,
            (events ++ [DocPollEvent.sleep 2]) ++
              [DocPollEvent.fetchErr d.id e]⟩
        | Except.ok updated =>
            waitForTranslation fetch fuel updated (elapsed + 2) (calls + 1)
              ((events ++ [DocPollEvent.sleep 2]) ++
                [DocPollEvent.fetchOk d.id updated])) ∧
    (∀ d : Document, d.status = DocumentStatusError →
      documentTranslateErrorCheck d =
        some (GoError.errorf ("document translation failed: " ++
          (match d.errorReason with
           | some reason => reason
           | none => "translation failed")) none) ∧
      documentTranslateErrorCheck d ≠ none) ∧
    (∀ d : Document, d.status ≠ DocumentStatusError →
      documentTranslateErrorCheck d = none) := by
  refine ⟨?_, ?_, ?_, ?_, ?_⟩
  · intro fetch fuel
    induction fuel with
    | zero => intro d elapsed calls events out h; cases h
    | succ f ih =>
        intro d elapsed calls events out h hnone
        rw [waitForTranslation_succ] at h
        split at h
        · rw [if_neg (by simp [docMaxWaitTime])] at h
          split at h
          · cases h
            simp at hnone
          · exact ih _ _ _ _ _ h hnone
        · cases h
          rename_i hcond
          rcases not_and_or.mp hcond with hc | hc
          · exact Or.inl (not_not.mp hc)
          · exact Or.inr (not_not.mp hc)
  · intro fetch fuel d elapsed calls events h
    rw [waitForTranslation_succ,
      if_neg (by rcases h with h | h <;> simp [h])]
  · intro fetch fuel d elapsed calls events h1 h2
    rw [waitForTranslation_succ, if_pos ⟨h1, h2⟩,
      if_neg (by simp [docMaxWaitTime])]
  · intro d h
    constructor
    · unfold documentTranslateErrorCheck
      rw [if_pos h]
    · simp [documentTranslateErrorCheck, h]
  · intro d h
    simp [documentTranslateErrorCheck, h]

/-- A closed instance of C9: the post-wait check on an error-status
document with a recorded reason. -/
theorem claim_C9_document_wait_witness :
    documentTranslateErrorCheck ⟨"d1", "error", "en", "f.txt", some "bad"⟩ =
      some (GoError.errorf ("document translation failed: " ++
        (match (⟨"d1", "error", "en", "f.txt", some "bad"⟩ :
            Document).errorReason with
         | some reason => reason
         | none => "translation failed")) none) ∧
    documentTranslateErrorCheck ⟨"d1", "error", "en", "f.txt", some "bad"⟩ ≠
      none :=
  claim_C9_document_wait.2.2.2.1 ⟨"d1", "error", "en", "f.txt", some "bad"⟩
    rfl

end LaraGo
